import Mathlib

set_option maxRecDepth 100000

/-!
Verification of the live-captions-yt relay backend (`lcyt-backend`) and the
caption sender library (`lcyt`).  The Python sources are shallowly embedded:
pure helpers become Lean functions, stateful handlers become explicit
state-passing functions, machine/float arithmetic is modelled with `Nat`,
`Int` and `ℚ`, and fallible code returns `Option`/`Except`.
-/

/-! ### Generic list helpers -/

/-- Concatenation of the images of a function over a list (`flat_map`). -/
def listFlat {α β : Type} (f : α → List β) : List α → List β
  | [] => []
  | a :: l => f a ++ listFlat f l

/-! ### SHA-256 (as used by Python's `hashlib.sha256` in `store.py`/`_jwt.py`)

Words are `Nat` values kept below `2^32` by explicit reduction `% 2^32`;
messages and digests are lists of byte values (`Nat < 256`).
-/

/-- Reduce to a 32-bit word. -/
def w32 (n : Nat) : Nat := n % 4294967296

/-- 32-bit right rotation. -/
def rotr32 (x n : Nat) : Nat := w32 ((x >>> n) ||| (x <<< (32 - n)))

/-- SHA-256 round constants. -/
def shaK : List Nat :=
  [1116352408, 1899447441, 3049323471, 3921009573, 961987163,
   1508970993, 2453635748, 2870763221, 3624381080, 310598401,
   607225278, 1426881987, 1925078388, 2162078206, 2614888103,
   3248222580, 3835390401, 4022224774, 264347078, 604807628,
   770255983, 1249150122, 1555081692, 1996064986, 2554220882,
   2821834349, 2952996808, 3210313671, 3336571891, 3584528711,
   113926993, 338241895, 666307205, 773529912, 1294757372,
   1396182291, 1695183700, 1986661051, 2177026350, 2456956037,
   2730485921, 2820302411, 3259730800, 3345764771, 3516065817,
   3600352804, 4094571909, 275423344, 430227734, 506948616,
   659060556, 883997877, 958139571, 1322822218, 1537002063,
   1747873779, 1955562222, 2024104815, 2227730452, 2361852424,
   2428436474, 2756734187, 3204031479, 3329325298]

/-- The eight working variables of the SHA-256 compression function. -/
structure H8 where
  a : Nat
  b : Nat
  c : Nat
  d : Nat
  e : Nat
  f : Nat
  g : Nat
  h : Nat

/-- SHA-256 initial hash value. -/
def shaH0 : H8 :=
  ⟨1779033703, 3144134277, 1013904242, 2773480762,
   1359893119, 2600822924, 528734635, 1541459225⟩

/-- One step of the message-schedule extension: appends word `W[t]` computed
from `W[t-2]`, `W[t-7]`, `W[t-15]`, `W[t-16]`. -/
def extendStep (ws : List Nat) : List Nat :=
  let n := ws.length
  let w15 := ws.getD (n - 15) 0
  let w2 := ws.getD (n - 2) 0
  let s0 := (rotr32 w15 7) ^^^ (rotr32 w15 18) ^^^ (w15 >>> 3)
  let s1 := (rotr32 w2 17) ^^^ (rotr32 w2 19) ^^^ (w2 >>> 10)
  ws ++ [w32 (ws.getD (n - 16) 0 + s0 + ws.getD (n - 7) 0 + s1)]

/-- Extend 16 block words to the 64-word message schedule. -/
def schedule (block : List Nat) : List Nat :=
  (List.range 48).foldl (fun acc _ => extendStep acc) block

/-- One SHA-256 compression round, consuming a pair (round constant, word). -/
def shaRound (st : H8) (kw : Nat × Nat) : H8 :=
  let S1 := (rotr32 st.e 6) ^^^ (rotr32 st.e 11) ^^^ (rotr32 st.e 25)
  let ch := (st.e &&& st.f) ^^^ ((st.e ^^^ 0xffffffff) &&& st.g)
  let temp1 := w32 (st.h + S1 + ch + kw.1 + kw.2)
  let S0 := (rotr32 st.a 2) ^^^ (rotr32 st.a 13) ^^^ (rotr32 st.a 22)
  let maj := (st.a &&& st.b) ^^^ (st.a &&& st.c) ^^^ (st.b &&& st.c)
  let temp2 := w32 (S0 + maj)
  ⟨w32 (temp1 + temp2), st.a, st.b, st.c, w32 (st.d + temp1), st.e, st.f, st.g⟩

/-- Process one 512-bit block (given as 16 words). -/
def processBlock (hv : H8) (block : List Nat) : H8 :=
  let st := (shaK.zip (schedule block)).foldl shaRound hv
  ⟨w32 (hv.a + st.a), w32 (hv.b + st.b), w32 (hv.c + st.c), w32 (hv.d + st.d),
   w32 (hv.e + st.e), w32 (hv.f + st.f), w32 (hv.g + st.g), w32 (hv.h + st.h)⟩

/-- Group bytes into big-endian 32-bit words. -/
def bytesToWords : List Nat → List Nat
  | b0 :: b1 :: b2 :: b3 :: rest =>
      (b0 * 16777216 + b1 * 65536 + b2 * 256 + b3) :: bytesToWords rest
  | _ => []

/-- Big-endian 8-byte encoding of the message bit length. -/
def lenBytes64 (bitLen : Nat) : List Nat :=
  [bitLen / 72057594037927936 % 256, bitLen / 281474976710656 % 256,
   bitLen / 1099511627776 % 256, bitLen / 4294967296 % 256,
   bitLen / 16777216 % 256, bitLen / 65536 % 256, bitLen / 256 % 256,
   bitLen % 256]

/-- SHA-256 padding: append `0x80`, zero bytes to 56 mod 64, then the 64-bit
big-endian bit length. -/
def padMessage (msg : List Nat) : List Nat :=
  let L := msg.length
  let padZeros := (119 - L % 64) % 64
  msg ++ 0x80 :: List.replicate padZeros 0 ++ lenBytes64 (L * 8)

/-- Fuel-driven chunking of a word list into blocks of 16 words. -/
def chunk16F : Nat → List Nat → List (List Nat)
  | 0, _ => []
  | _, [] => []
  | fuel + 1, ws => ws.take 16 :: chunk16F fuel (ws.drop 16)

/-- Split a word list into chunks of 16 (the 512-bit blocks). -/
def chunk16 (ws : List Nat) : List (List Nat) := chunk16F ws.length ws

/-- Big-endian bytes of one 32-bit word. -/
def wordBytes (w : Nat) : List Nat :=
  [w / 16777216 % 256, w / 65536 % 256, w / 256 % 256, w % 256]

/-- Digest bytes of a hash state. -/
def digestBytes (st : H8) : List Nat :=
  wordBytes st.a ++ wordBytes st.b ++ wordBytes st.c ++ wordBytes st.d ++
  wordBytes st.e ++ wordBytes st.f ++ wordBytes st.g ++ wordBytes st.h

/-- SHA-256 of a byte list, as the 32 digest bytes. -/
def sha256 (msg : List Nat) : List Nat :=
  digestBytes ((chunk16 (bytesToWords (padMessage msg))).foldl processBlock shaH0)

/-! ### Hex digests and UTF-8 encoding -/

/-- Lowercase hex digit: `0`-`9` then `a`-`f`. -/
def hexChar (n : Nat) : Char :=
  if n < 10 then Char.ofNat (48 + n)
  else if n < 16 then Char.ofNat (87 + n)
  else '0'

/-- Two hex characters of a byte. -/
def byteHex (b : Nat) : List Char := [hexChar (b / 16), hexChar (b % 16)]

/-- Hex characters of a byte list. -/
def bytesHex (bs : List Nat) : List Char := listFlat byteHex bs

/-- `hashlib.sha256(msg).hexdigest()`. -/
def sha256_hexdigest (msg : List Nat) : String := String.mk (bytesHex (sha256 msg))

/-- UTF-8 encoding of one character (Python `str.encode`). -/
def utf8Bytes (c : Char) : List Nat :=
  let n := c.toNat
  if n < 128 then [n]
  else if n < 2048 then [192 + n / 64, 128 + n % 64]
  else if n < 65536 then [224 + n / 4096, 128 + n / 64 % 64, 128 + n % 64]
  else [240 + n / 262144, 128 + n / 4096 % 64, 128 + n / 64 % 64, 128 + n % 64]

/-- UTF-8 encoding of a character list. -/
def utf8Chars (cs : List Char) : List Nat := listFlat utf8Bytes cs

/-- UTF-8 encoding of a string (Python `str.encode()`). -/
def strBytes (s : String) : List Nat := utf8Chars s.data

/-! ### Session identifiers (`store.py`, `make_session_id`) -/

/-- `make_session_id` from `lcyt_backend/store.py`: SHA-256 of
`"apiKey:streamKey:domain"`, hex digest truncated to 16 characters. -/
def make_session_id (api_key stream_key domain : String) : String :=
  String.mk ((bytesHex (sha256 (strBytes
    (api_key ++ ":" ++ stream_key ++ ":" ++ domain)))).take 16)

/-- The session identifier as the spec words it: the first 16 hexadecimal
characters of the SHA-256 digest of the three fields joined with colons. -/
def spec_session_id (apiKey streamKey domain : String) : String :=
  String.mk ((sha256_hexdigest (strBytes
    (apiKey ++ ":" ++ streamKey ++ ":" ++ domain))).data.take 16)

/-! ### URL-safe base64 without padding (`base64.urlsafe_b64encode(...).rstrip(b"=")`) -/

/-- The URL-safe base64 alphabet. -/
def b64Alphabet : List Char :=
  ['A', 'B', 'C', 'D', 'E', 'F', 'G', 'H', 'I', 'J', 'K', 'L', 'M',
   'N', 'O', 'P', 'Q', 'R', 'S', 'T', 'U', 'V', 'W', 'X', 'Y', 'Z',
   'a', 'b', 'c', 'd', 'e', 'f', 'g', 'h', 'i', 'j', 'k', 'l', 'm',
   'n', 'o', 'p', 'q', 'r', 's', 't', 'u', 'v', 'w', 'x', 'y', 'z',
   '0', '1', '2', '3', '4', '5', '6', '7', '8', '9', '-', '_']

/-- Character for a 6-bit value. -/
def b64Char (v : Nat) : Char := b64Alphabet.getD v 'A'

/-- Index of a character in the base64 alphabet. -/
def b64ValAux : List Char → Nat → Char → Option Nat
  | [], _, _ => none
  | a :: rest, i, c => if a = c then some i else b64ValAux rest (i + 1) c

/-- 6-bit value of a base64 character, if any. -/
def b64Val (c : Char) : Option Nat := b64ValAux b64Alphabet 0 c

/-- `_b64url_encode`: URL-safe base64 of a byte list with padding stripped. -/
def b64e : List Nat → List Char
  | [] => []
  | [b1] => [b64Char (b1 / 4), b64Char (b1 % 4 * 16)]
  | [b1, b2] =>
      [b64Char (b1 / 4), b64Char (b1 % 4 * 16 + b2 / 16), b64Char (b2 % 16 * 4)]
  | b1 :: b2 :: b3 :: rest =>
      b64Char (b1 / 4) :: b64Char (b1 % 4 * 16 + b2 / 16) ::
      b64Char (b2 % 16 * 4 + b3 / 64) :: b64Char (b3 % 64) :: b64e rest

/-- `_b64url_decode`: re-pad and decode URL-safe base64.  A one-character
trailing group (impossible in valid base64) and characters outside the
alphabet are decode failures. -/
def b64d : List Char → Option (List Nat)
  | [] => some []
  | [x, y] => do
      let vx ← b64Val x
      let vy ← b64Val y
      pure [vx * 4 + vy / 16]
  | [x, y, z] => do
      let vx ← b64Val x
      let vy ← b64Val y
      let vz ← b64Val z
      pure [vx * 4 + vy / 16, vy % 16 * 16 + vz / 4]
  | [_] => none
  | x :: y :: z :: w :: rest => do
      let vx ← b64Val x
      let vy ← b64Val y
      let vz ← b64Val z
      let vw ← b64Val w
      let tail ← b64d rest
      pure ((vx * 4 + vy / 16) :: (vy % 16 * 16 + vz / 4) :: (vz % 4 * 64 + vw) :: tail)

/-! ### HMAC-SHA256 (`hmac.new(secret, msg, hashlib.sha256).digest()`) -/

/-- HMAC-SHA256 over byte lists. -/
def hmacSha256 (key msg : List Nat) : List Nat :=
  let k0 := if 64 < key.length then sha256 key else key
  let kPad := k0 ++ List.replicate (64 - k0.length) 0
  sha256 (kPad.map (fun b => b ^^^ 92) ++
    sha256 (kPad.map (fun b => b ^^^ 54) ++ msg))

/-! ### JSON (the subset produced and consumed for JWT payloads)

`_jwt.py` serializes claim dicts with `json.dumps(payload,
separators=(",", ":"))` and reads them back with `json.loads`.  Claims in
this app are flat objects of strings/ints/bools/null, so the embedding
models exactly that subset: `dumpsChars` is the compact serialization and
the parse functions model `json.loads` on escape-free ASCII input of that
shape. -/

/-- A JSON scalar value as used in token payloads. -/
inductive JVal where
  | jnull : JVal
  | jbool : Bool → JVal
  | jint : Int → JVal
  | jstr : String → JVal
deriving DecidableEq, Repr

/-- A claims object: ordered key/value pairs. -/
abbrev Claims : Type := List (String × JVal)

/-- Decimal digit character. -/
def digitChar (n : Nat) : Char :=
  if n < 10 then Char.ofNat (48 + n) else '0'

/-- Fuel-driven decimal digits of a natural number (most significant first). -/
def natDigitsF : Nat → Nat → List Char
  | 0, _ => []
  | fuel + 1, n =>
      if n < 10 then [digitChar n]
      else natDigitsF fuel (n / 10) ++ [digitChar (n % 10)]

/-- Decimal digits of a natural number. -/
def natDigits (n : Nat) : List Char := natDigitsF (n + 1) n

/-- Decimal representation of an integer (Python `repr` of `int`). -/
def intChars (n : Int) : List Char :=
  if n < 0 then '-' :: natDigits n.natAbs else natDigits n.toNat

/-- Compact serialization of one JSON value. -/
def dumpVal : JVal → List Char
  | .jnull => ['n', 'u', 'l', 'l']
  | .jbool true => ['t', 'r', 'u', 'e']
  | .jbool false => ['f', 'a', 'l', 's', 'e']
  | .jint n => intChars n
  | .jstr s => '"' :: s.data ++ ['"']

/-- Compact serialization of one `"key":value` member. -/
def pairChars (kv : String × JVal) : List Char :=
  '"' :: kv.1.data ++ '"' :: ':' :: dumpVal kv.2

/-- Comma-joined members of an object. -/
def membersChars : Claims → List Char
  | [] => []
  | [kv] => pairChars kv
  | kv :: rest => pairChars kv ++ ',' :: membersChars rest

/-- `json.dumps(payload, separators=(",", ":"))` as characters. -/
def dumpsChars (c : Claims) : List Char := '{' :: membersChars c ++ ['}']

/-- `json.dumps(payload, separators=(",", ":"))`. -/
def json_dumps (c : Claims) : String := String.mk (dumpsChars c)

/-- Characters of a string body up to the closing quote. -/
def strCharsPre : List Char → Option (List Char × List Char)
  | [] => none
  | c :: rest =>
      if c = '"' then some ([], rest)
      else (strCharsPre rest).map (fun p => (c :: p.1, p.2))

/-- Split a leading run of decimal digits. -/
def spanDigits : List Char → List Char × List Char
  | [] => ([], [])
  | c :: rest =>
      if c.isDigit then
        let p := spanDigits rest
        (c :: p.1, p.2)
      else ([], c :: rest)

/-- Numeric value of a digit character. -/
def digitVal (c : Char) : Nat := c.toNat - 48

/-- Numeric value of a digit run. -/
def foldDigits (ds : List Char) : Nat :=
  ds.foldl (fun acc c => acc * 10 + digitVal c) 0

/-- Parse a nonempty run of digits as a natural number. -/
def parseNat (cs : List Char) : Option (Nat × List Char) :=
  match spanDigits cs with
  | ([], _) => none
  | (ds, rest) => some (foldDigits ds, rest)

/-- Parse an optionally negated decimal integer. -/
def parseIntChars : List Char → Option (Int × List Char)
  | [] => none
  | c :: rest =>
      if c = '-' then (parseNat rest).map (fun p => (-(p.1 : Int), p.2))
      else (parseNat (c :: rest)).map (fun p => ((p.1 : Int), p.2))

/-- Parse one JSON scalar value. -/
def parseVal : List Char → Option (JVal × List Char)
  | [] => none
  | c :: rest =>
      if c = '"' then
        (strCharsPre rest).map (fun p => (JVal.jstr (String.mk p.1), p.2))
      else if c = 't' then
        match rest with
        | 'r' :: 'u' :: 'e' :: r => some (JVal.jbool true, r)
        | _ => none
      else if c = 'f' then
        match rest with
        | 'a' :: 'l' :: 's' :: 'e' :: r => some (JVal.jbool false, r)
        | _ => none
      else if c = 'n' then
        match rest with
        | 'u' :: 'l' :: 'l' :: r => some (JVal.jnull, r)
        | _ => none
      else (parseIntChars (c :: rest)).map (fun p => (JVal.jint p.1, p.2))

/-- Parse the nonempty member list of an object, consuming the closing `}`. -/
def parseMembers : Nat → List Char → Option (Claims × List Char)
  | 0, _ => none
  | fuel + 1, cs => do
      let p1 ← match cs with
        | '"' :: rest => strCharsPre rest
        | _ => none
      let r2 ← match p1.2 with
        | ':' :: r => some r
        | _ => (none : Option (List Char))
      let p3 ← parseVal r2
      match p3.2 with
      | ',' :: r4 => do
          let p5 ← parseMembers fuel r4
          pure (((String.mk p1.1, p3.1) :: p5.1, p5.2) : Claims × List Char)
      | '}' :: r4 => pure ([(String.mk p1.1, p3.1)], r4)
      | _ => none

/-- Parse one JSON object. -/
def parseObj : List Char → Option (Claims × List Char)
  | '{' :: '}' :: rest => some (([] : Claims), rest)
  | '{' :: rest => parseMembers rest.length rest
  | _ => none

/-- `json.loads` on the compact object subset: the whole input must be one
object. -/
def json_loads (cs : List Char) : Option Claims :=
  match parseObj cs with
  | some (c, []) => some c
  | _ => none

/-! ### The JWT codec (`_jwt.py`) -/

/-- Decode failures of `_jwt.decode`: `DecodeError` (malformed),
`InvalidSignatureError`, `ExpiredSignatureError`; `typeMismatch` models the
`TypeError` Python would raise comparing a non-numeric `exp` claim. -/
inductive JwtError where
  | malformed : JwtError
  | badSignature : JwtError
  | expired : JwtError
  | typeMismatch : JwtError
deriving DecidableEq, Repr

/-- The fixed header JSON, exactly as `json.dumps({"alg": "HS256", "typ":
"JWT"})` prints it (default separators, with spaces). -/
def headerJson : String := "\x7b\"alg\": \"HS256\", \"typ\": \"JWT\"\x7d"

/-- `_HEADER`: base64url of the header JSON, padding stripped. -/
def jwtHeaderB64 : List Char := b64e (strBytes headerJson)

/-- `_jwt.encode(payload, secret)` as characters:
`header.payload.signature`. -/
def jwt_encode_chars (payload : Claims) (secret : String) : List Char :=
  let payloadB64 := b64e (utf8Chars (dumpsChars payload))
  let signingInput := jwtHeaderB64 ++ '.' :: payloadB64
  signingInput ++ '.' :: b64e (hmacSha256 (strBytes secret) (utf8Chars signingInput))

/-- `_jwt.encode(payload, secret)`. -/
def jwt_encode (payload : Claims) (secret : String) : String :=
  String.mk (jwt_encode_chars payload secret)

/-- Python `str.split(sep)` for a single-character separator. -/
def splitOnChar (sep : Char) : List Char → List (List Char)
  | [] => [[]]
  | c :: rest =>
      if c = sep then [] :: splitOnChar sep rest
      else
        match splitOnChar sep rest with
        | [] => [[c]]
        | g :: gs => (c :: g) :: gs

/-- Dict lookup on a claims object (first matching key). -/
def lookupClaim (k : String) : Claims → Option JVal
  | [] => none
  | kv :: rest => if kv.1 = k then some kv.2 else lookupClaim k rest

/-- Bytes read back as characters (`bytes.decode` on ASCII payloads). -/
def asciiChars (bs : List Nat) : List Char := bs.map Char.ofNat

/-- `_jwt.decode(token, secret)` with the current time passed explicitly
(seconds; the code compares `payload["exp"] < time.time()`). -/
def jwt_decode (token : String) (secret : String) (now : Int) :
    Except JwtError Claims :=
  match splitOnChar '.' token.data with
  | [hSeg, pSeg, sSeg] =>
      let expected := hmacSha256 (strBytes secret) (utf8Chars (hSeg ++ '.' :: pSeg))
      match b64d sSeg with
      | none => .error .malformed
      | some provided =>
          if expected ≠ provided then .error .badSignature
          else
            match b64d pSeg with
            | none => .error .malformed
            | some payloadBytes =>
                match json_loads (asciiChars payloadBytes) with
                | none => .error .malformed
                | some payload =>
                    match lookupClaim "exp" payload with
                    | some (.jint e) =>
                        if e < now then .error .expired else .ok payload
                    | some _ => .error .typeMismatch
                    | none => .ok payload
  | _ => .error .malformed

/-- Decidable equality for `Except` results. -/
instance {ε α : Type} [DecidableEq ε] [DecidableEq α] :
    DecidableEq (Except ε α) := fun x y =>
  match x, y with
  | .ok a, .ok b =>
      if h : a = b then isTrue (by rw [h])
      else isFalse (by intro hc; cases hc; exact h rfl)
  | .ok _, .error _ => isFalse (by intro hc; cases hc)
  | .error _, .ok _ => isFalse (by intro hc; cases hc)
  | .error e, .error e' =>
      if h : e = e' then isTrue (by rw [h])
      else isFalse (by intro hc; cases hc; exact h rfl)

/-- A string `json.dumps` prints verbatim (printable ASCII, no quote or
backslash) — on these, the embedded serializer and parser agree with
Python's. -/
def safeStrB (s : String) : Bool :=
  s.data.all (fun c => decide (32 ≤ c.toNat) && decide (c.toNat < 127) &&
    !(c = '"') && !(c = '\\'))

/-- Values whose serialization the embedding models exactly. -/
def safeValB : JVal → Bool
  | .jstr s => safeStrB s
  | _ => true

/-- Keys of a claims object. -/
def claimKeys (c : Claims) : List String := c.map Prod.fst

/-- Claims objects on which the embedded codec agrees with `_jwt.py`:
safe key and string characters, and no duplicate keys (a Python dict
cannot have duplicates). -/
def SafeClaims (c : Claims) : Prop :=
  (∀ kv ∈ c, safeStrB kv.1 = true ∧ safeValB kv.2 = true) ∧
    (claimKeys c).Nodup

/-! ### API-key validation (`db.py`, `validate_api_key`)

A database row of the `api_keys` table.  `expires_at` is modelled as the
UTC instant (epoch seconds) that `datetime.fromisoformat` parses from the
stored string, `none` for SQL NULL (the code treats an empty string like
NULL because `if row["expires_at"]:` is falsy on it). -/

structure ApiKeyRow where
  key : String
  owner : String
  expires_at : Option Int
  active : Int
deriving DecidableEq, Repr

/-- The `reason` labels of a failed validation, named by the literal
strings the code returns (`"unknown_key"`, `"revoked"`, `"expired"`). -/
inductive KeyReason where
  | unknown_key : KeyReason
  | revoked : KeyReason
  | expired : KeyReason
deriving DecidableEq, Repr

/-- Result dict of `validate_api_key`. -/
structure KeyValidation where
  valid : Bool
  reason : Option KeyReason
  owner : Option String
  expires_at : Option Int
deriving DecidableEq, Repr

/-- `SELECT * FROM api_keys WHERE key = ?` + `fetchone()`. -/
def findRow (db : List ApiKeyRow) (key : String) : Option ApiKeyRow :=
  db.find? (fun r => r.key == key)

/-- `validate_api_key(conn, key)` with the current UTC time passed
explicitly (epoch seconds). -/
def validate_api_key (db : List ApiKeyRow) (key : String) (now : Int) :
    KeyValidation :=
  match findRow db key with
  | none => ⟨false, some .unknown_key, none, none⟩
  | some row =>
      if row.active = 0 then ⟨false, some .revoked, none, none⟩
      else
        match row.expires_at with
        | some exp =>
            if exp < now then ⟨false, some .expired, none, none⟩
            else ⟨true, none, some row.owner, some exp⟩
        | none => ⟨true, none, some row.owner, none⟩

/-! ### Admin gate (`middleware/admin.py`, `require_admin`) -/

/-- Outcome of the admin gate. -/
inductive AdminGate where
  | serviceUnavailable : AdminGate
  | unauthorized : AdminGate
  | forbidden : AdminGate
  | proceed : AdminGate
deriving DecidableEq, Repr

/-- `require_admin`: `adminKeyEnv` is `ADMIN_KEY` from the environment
(`none` = unset), `headerKey` the request's `X-Admin-Key` header (`none` =
absent).  `hmac.compare_digest` on the encodings of two strings holds
exactly when the strings are equal. -/
def require_admin (adminKeyEnv : Option String) (headerKey : Option String) :
    AdminGate :=
  let admin_key := adminKeyEnv.getD ""
  if admin_key = "" then .serviceUnavailable
  else
    let provided := headerKey.getD ""
    if provided = "" then .unauthorized
    else if ¬(admin_key = provided) then .forbidden
    else .proceed

/-! ### The caption sender (`lcyt/sender.py`, `YoutubeLiveCaptionSender`)

Network I/O is passed in explicitly: a call's `_send_post` outcome is an
`Except Unit PostResult` argument (`.error` = the request raised
`NetworkError`).  A heartbeat/send response's `server_timestamp` is
modelled as the UTC epoch-millisecond value `datetime.fromisoformat`
parses from the response body, `none` when the body is empty. -/

/-- A caption: text plus an optional absolute timestamp (epoch ms). -/
structure CaptionV where
  text : String
  timestamp : Option ℚ
deriving DecidableEq, Repr

/-- Result of one `_send_post` HTTP exchange. -/
structure PostResult where
  status_code : Nat
  server_timestamp : Option ℚ
deriving DecidableEq, Repr

/-- `SendResult` as returned by `send`/`send_batch`/`heartbeat`. -/
structure SendResult where
  sequence : Int
  status_code : Nat
  server_timestamp : Option ℚ
  count : Option Nat
deriving DecidableEq, Repr

/-- The sender's mutable state. -/
structure SenderState where
  stream_key : String
  sequence : Int
  sync_offset : Int
  use_sync_offset : Bool
  started : Bool
  queue : List CaptionV
deriving DecidableEq, Repr

/-- Errors a sender operation raises: `ValidationError` or `NetworkError`. -/
inductive SenderErr where
  | validation : SenderErr
  | network : SenderErr
deriving DecidableEq, Repr

/-- `YoutubeLiveCaptionSender(stream_key=..., sequence=...)`. -/
def sender_init (stream_key : String) (sequence : Int) : SenderState :=
  ⟨stream_key, sequence, 0, false, false, []⟩

/-- Truncation toward zero, Python's `int()` on a float. -/
def pythonInt (q : ℚ) : Int := q.num / (q.den : Int)

/-- Python's `round()` to an integer: round-half-to-even. -/
def pythonRound (q : ℚ) : Int :=
  let f := ⌊q⌋
  let r := q - (f : ℚ)
  if r < 1 / 2 then f
  else if 1 / 2 < r then f + 1
  else if f % 2 = 0 then f else f + 1

/-- `heartbeat()`: an empty POST at the current sequence; never changes the
sender state. -/
def sender_heartbeat (st : SenderState) (net : Except Unit PostResult) :
    Except SenderErr (SenderState × SendResult) :=
  if ¬st.started then .error .validation
  else
    match net with
    | .error _ => .error .network
    | .ok r => .ok (st, ⟨st.sequence, r.status_code, r.server_timestamp, none⟩)

/-- `send_batch(captions)`: `none` sends and clears the queue; increments
the sequence exactly on a 2xx upstream status. -/
def sender_send_batch (st : SenderState) (captions : Option (List CaptionV))
    (net : Except Unit PostResult) :
    Except SenderErr (SenderState × SendResult) :=
  if ¬st.started then .error .validation
  else
    let caps := captions.getD st.queue
    let st1 := match captions with
      | none => { st with queue := [] }
      | some _ => st
    if caps = [] then .error .validation
    else
      match net with
      | .error _ => .error .network
      | .ok r =>
          let sent := st1.sequence
          let st2 :=
            if 200 ≤ r.status_code ∧ r.status_code < 300 then
              { st1 with sequence := st1.sequence + 1 }
            else st1
          .ok (st2, ⟨sent, r.status_code, r.server_timestamp, some caps.length⟩)

/-- `send(text, timestamp)`: validates the text then delegates to
`send_batch` with a singleton. -/
def sender_send (st : SenderState) (text : String) (timestamp : Option ℚ)
    (net : Except Unit PostResult) :
    Except SenderErr (SenderState × SendResult) :=
  if ¬st.started then .error .validation
  else if text = "" then .error .validation
  else sender_send_batch st (some [⟨text, timestamp⟩]) net

/-- `get_sequence()`. -/
def sender_get_sequence (st : SenderState) : Int := st.sequence

/-- Result dict of `sync()`. -/
structure SyncResult where
  sync_offset : Int
  round_trip_time : Int
  server_timestamp : Option ℚ
  status_code : Nat
deriving DecidableEq, Repr

/-- `sync()` from `lcyt/sender.py`: wall-clock readings before and after
the heartbeat are passed in (epoch ms, `time.time() * 1000`). -/
def sender_sync (st : SenderState) (t1_wall_ms t2_wall_ms : ℚ)
    (net : Except Unit PostResult) :
    Except SenderErr (SenderState × SyncResult) :=
  if ¬st.started then .error .validation
  else
    match net with
    | .error _ => .error .network
    | .ok r =>
        let rtt_ms := pythonInt (t2_wall_ms - t1_wall_ms)
        match r.server_timestamp with
        | none =>
            .ok (st, ⟨st.sync_offset, rtt_ms, none, r.status_code⟩)
        | some serverMs =>
            let offset := pythonRound (serverMs - (t1_wall_ms + t2_wall_ms) / 2)
            .ok ({ st with sync_offset := offset, use_sync_offset := true },
              ⟨offset, rtt_ms, some serverMs, r.status_code⟩)

/-! ### The session store (`store.py`, `SessionStore`) -/

/-- One stored session dict. -/
structure Session where
  session_id : String
  api_key : String
  stream_key : String
  domain : String
  jwt : String
  sequence : Int
  sync_offset : Int
  sender : SenderState
  started_at : ℚ
  created_at : ℚ
  last_activity_at : ℚ
deriving DecidableEq, Repr

/-- The store's dict, keyed by session id, in insertion order. -/
abbrev Store : Type := List (String × Session)

/-- Dict assignment `self._sessions[sid] = session`. -/
def storeSet : Store → String → Session → Store
  | [], sid, s => [(sid, s)]
  | (k, v) :: rest, sid, s =>
      if k = sid then (sid, s) :: rest else (k, v) :: storeSet rest sid s

/-- `SessionStore.get`. -/
def store_get : Store → String → Option Session
  | [], _ => none
  | (k, v) :: rest, sid => if k = sid then some v else store_get rest sid

/-- `SessionStore.has`. -/
def store_has (store : Store) (sid : String) : Bool :=
  (store_get store sid).isSome

/-- `SessionStore.size`. -/
def store_size (store : Store) : Nat := store.length

/-- `SessionStore.touch`: update `last_activity_at`, no-op if absent. -/
def store_touch (store : Store) (sid : String) (now : ℚ) : Store :=
  match store_get store sid with
  | none => store
  | some s => storeSet store sid { s with last_activity_at := now }

/-- `SessionStore.remove`. -/
def store_remove (store : Store) (sid : String) : Option Session × Store :=
  (store_get store sid, store.filter (fun kv => ¬(kv.1 = sid)))

/-- `SessionStore.get_by_domain` is nonempty. -/
def has_domain (store : Store) (origin : String) : Bool :=
  store.any (fun kv => kv.2.domain == origin)

/-- `SessionStore.create`: builds the session dict and stores it under the
deterministic id.  `now_wall` is `time.time()` (seconds), `now_dt` the
`datetime.now(timezone.utc)` reading. -/
def store_create (store : Store) (api_key stream_key domain jwt : String)
    (sender : SenderState) (sequence sync_offset : Int)
    (now_wall now_dt : ℚ) : Session × Store :=
  let sid := make_session_id api_key stream_key domain
  let session : Session :=
    ⟨sid, api_key, stream_key, domain, jwt, sequence, sync_offset, sender,
     now_wall, now_dt, now_dt⟩
  (session, storeSet store sid session)

/-! ### Session registration (`routes/live.py`, `register_session`) -/

/-- `_sync_sender` in `live.py` (also the body of `routes/sync.py`): an
NTP-ish estimate from a heartbeat round trip; `t0`/`t1` are the
`time.monotonic()` readings (seconds).  Offset is `rtt_ms // 2`
(floor division). -/
def sync_via_heartbeat (sender : SenderState) (t0 t1 : ℚ)
    (net : Except Unit PostResult) :
    Except SenderErr (Int × Int × Option ℚ × Nat) :=
  match sender_heartbeat sender net with
  | .error e => .error e
  | .ok (_, r) =>
      let rtt_ms := pythonInt ((t1 - t0) * 1000)
      .ok (Int.fdiv rtt_ms 2, rtt_ms, r.server_timestamp, r.status_code)

/-- The per-request environment of `register_session`: monotonic readings
around the initial sync heartbeat, the heartbeat's network outcome, and
the clock readings taken at `store.create`/`store.touch`. -/
structure RegisterEnv where
  t0 : ℚ
  t1 : ℚ
  heartbeat : Except Unit PostResult
  now_wall : ℚ
  now_dt : ℚ
deriving DecidableEq, Repr

/-- The JSON body of a `POST /live` response. -/
structure RegisterResponse where
  status : Nat
  token : Option String
  sessionId : Option String
  sequence : Option Int
  syncOffset : Option Int
  startedAt : Option ℚ
deriving DecidableEq, Repr

/-- `register_session` (`POST /live`).  Missing body fields arrive as `""`
(`body.get(...)` of an absent key is falsy). -/
def register_session (db : List ApiKeyRow) (now : Int) (jwt_secret : String)
    (store : Store) (apiKey streamKey domain : String) (startSeq : Int)
    (env : RegisterEnv) : RegisterResponse × Store :=
  if apiKey = "" ∨ streamKey = "" ∨ domain = "" then
    (⟨400, none, none, none, none, none⟩, store)
  else if (validate_api_key db apiKey now).valid = false then
    (⟨401, none, none, none, none, none⟩, store)
  else
    let sid := make_session_id apiKey streamKey domain
    match store_get store sid with
    | some existing =>
        (⟨200, some existing.jwt, some sid, some existing.sequence,
          some existing.sync_offset, some existing.started_at⟩,
         store_touch store sid env.now_dt)
    | none =>
        let sender := { sender_init streamKey startSeq with started := true }
        let sync_offset : Int :=
          match sync_via_heartbeat sender env.t0 env.t1 env.heartbeat with
          | .ok r => r.1
          | .error _ => 0
        let payload : Claims :=
          [("sessionId", .jstr sid), ("apiKey", .jstr apiKey),
           ("streamKey", .jstr streamKey), ("domain", .jstr domain)]
        let token := jwt_encode payload jwt_secret
        let created := store_create store apiKey streamKey domain token sender
          (sender_get_sequence sender) sync_offset env.now_wall env.now_dt
        (⟨200, some token, some sid, some created.1.sequence,
          some created.1.sync_offset, some created.1.started_at⟩, created.2)

/-! ### Clock sync route (`routes/sync.py`, `sync_session`) -/

/-- The JSON body of a `POST /sync` response. -/
structure SyncRouteResponse where
  status : Nat
  syncOffset : Option Int
  roundTripTime : Option Int
  serverTimestamp : Option ℚ
  statusCode : Option Nat
deriving DecidableEq, Repr

/-- `sync_session` (`POST /sync`): heartbeat round trip, then store
`rtt_ms // 2` as the session's `sync_offset` and touch the session. -/
def sync_session (store : Store) (sid : String) (t0 t1 : ℚ)
    (net : Except Unit PostResult) (now_dt : ℚ) :
    SyncRouteResponse × Store :=
  match store_get store sid with
  | none => (⟨404, none, none, none, none⟩, store)
  | some session =>
      match sync_via_heartbeat session.sender t0 t1 net with
      | .error _ => (⟨502, none, none, none, some 502⟩, store)
      | .ok r =>
          let session' := { session with
            sync_offset := r.1, last_activity_at := now_dt }
          (⟨200, some r.1, some r.2.1, r.2.2.1, some r.2.2.2⟩,
           storeSet store sid session')

/-! ### Caption forwarding (`routes/captions.py`, `send_captions`) -/

/-- One entry of the request's `captions` array. -/
structure CaptionIn where
  text : String
  timestamp : Option ℚ
  time : Option ℚ
deriving DecidableEq, Repr

/-- Resolution of one caption's time reference: a relative `time` (ms since
session start) with no absolute `timestamp` becomes
`started_at * 1000 + time + sync_offset` epoch ms (the code materializes
this value as a UTC `datetime`). -/
def resolve_caption (started_at : ℚ) (sync_offset : Int) (c : CaptionIn) :
    CaptionV :=
  match c.timestamp, c.time with
  | none, some rel => ⟨c.text, some (started_at * 1000 + rel + (sync_offset : ℚ))⟩
  | ts, _ => ⟨c.text, ts⟩

/-- The JSON body of a `POST /captions` response. -/
structure CaptionsResponse where
  status : Nat
  sequence : Option Int
  count : Option Nat
  statusCode : Option Nat
  isError : Bool
deriving DecidableEq, Repr

/-- `send_captions` (`POST /captions`): the request body's `captions` array
(`none` = absent or not a list), the session id from the verified token's
claims, and the upstream POST outcome. -/
def send_captions (store : Store) (sid : String)
    (captions : Option (List CaptionIn)) (net : Except Unit PostResult)
    (now_dt : ℚ) : CaptionsResponse × Store :=
  match captions with
  | none => (⟨400, none, none, none, true⟩, store)
  | some caps =>
      if caps = [] then (⟨400, none, none, none, true⟩, store)
      else
        match store_get store sid with
        | none => (⟨404, none, none, none, true⟩, store)
        | some session =>
            let resolved :=
              caps.map (resolve_caption session.started_at session.sync_offset)
            let dispatch :=
              match resolved with
              | [c] => sender_send session.sender c.text c.timestamp net
              | _ => sender_send_batch session.sender (some resolved) net
            match dispatch with
            | .error _ => (⟨502, none, none, some 502, true⟩, store)
            | .ok sr =>
                let session' := { session with
                  sender := sr.1, sequence := sr.1.sequence,
                  last_activity_at := now_dt }
                let store' := storeSet store sid session'
                if 200 ≤ sr.2.status_code ∧ sr.2.status_code < 300 then
                  if resolved.length = 1 then
                    (⟨200, some sr.2.sequence, none, some sr.2.status_code,
                      false⟩, store')
                  else
                    (⟨200, some sr.2.sequence, sr.2.count,
                      some sr.2.status_code, false⟩, store')
                else
                  (⟨sr.2.status_code, some sr.2.sequence, none,
                    some sr.2.status_code, true⟩, store')

/-! ### CORS middleware (`middleware/cors.py`) -/

/-- Character-list prefix test. -/
def startsWithChars : List Char → List Char → Bool
  | _, [] => true
  | [], _ :: _ => false
  | c :: cs, p :: ps => c = p && startsWithChars cs ps

/-- Python's `str.startswith`. -/
def pathStartsWith (s pre : String) : Bool := startsWithChars s.data pre.data

/-- The CORS headers a response may carry. -/
structure CorsHeaders where
  allowOrigin : Option String
  allowMethods : Option String
  allowHeaders : Option String
  allowCredentials : Option String
deriving DecidableEq, Repr

/-- No CORS headers. -/
def emptyCors : CorsHeaders := ⟨none, none, none, none⟩

/-- `_ALLOWED_METHODS`. -/
def allowedMethods : String := "GET, POST, DELETE, PATCH, OPTIONS"

/-- `_ALLOWED_HEADERS`. -/
def allowedHeaders : String := "Content-Type, Authorization, X-Admin-Key"

/-- `_is_permissive_route`. -/
def is_permissive_route (method path : String) : Bool :=
  (method == "POST" && path == "/live") || (method == "GET" && path == "/health")

/-- `handle_preflight`: `none` means the request is not OPTIONS and
continues to the normal handlers; otherwise the short-circuit `204`
response with the CORS headers it carries. -/
def handle_preflight (method path origin : String) (store : Store) :
    Option (Nat × CorsHeaders) :=
  if ¬(method = "OPTIONS") then none
  else if pathStartsWith path "/keys" then some (204, emptyCors)
  else if ¬(origin = "") then
    let base : CorsHeaders :=
      ⟨none, some allowedMethods, some allowedHeaders, some "true"⟩
    if is_permissive_route method path || has_domain store origin then
      some (204, { base with allowOrigin := some origin })
    else some (204, base)
  else some (204, emptyCors)

/-- `add_cors_headers`: the CORS headers added to a non-preflight
response. -/
def add_cors_headers (method path origin : String) (store : Store) :
    CorsHeaders :=
  if pathStartsWith path "/keys" then emptyCors
  else if origin = "" then emptyCors
  else if is_permissive_route method path then
    ⟨some origin, some allowedMethods, some allowedHeaders, some "true"⟩
  else if has_domain store origin then
    ⟨some origin, some allowedMethods, some "Content-Type, Authorization",
     some "true"⟩
  else emptyCors

/-! ## Helper lemmas -/

/-- The embedded SHA-256 agrees with FIPS 180-4 / `hashlib` on the empty
message. -/
theorem sha256_empty_vector :
    sha256_hexdigest [] =
      "e3b0c44298fc1c149afbf4c8996fb92427ae41e4649b934ca495991b7852b855" := by
  rfl

/-- The embedded SHA-256 agrees with `hashlib` on `b"abc"`. -/
theorem sha256_abc_vector :
    sha256_hexdigest (strBytes "abc") =
      "ba7816bf8f01cfea414140de5dae2223b00361a396177a9cb410ff61f20015ad" := by
  rfl

/-- Writing a key makes it readable. -/
theorem store_get_storeSet_self (store : Store) (sid : String) (s : Session) :
    store_get (storeSet store sid s) sid = some s := by
  induction store with
  | nil => simp [storeSet, store_get]
  | cons kv rest ih =>
      by_cases h : kv.1 = sid
      · simp [storeSet, store_get, h]
      · simp [storeSet, store_get, h, ih]

/-- Overwriting an existing key does not change the dict's size. -/
theorem storeSet_length_of_mem (store : Store) (sid : String) (s v : Session)
    (h : store_get store sid = some v) :
    (storeSet store sid s).length = store.length := by
  induction store with
  | nil => simp [store_get] at h
  | cons kv rest ih =>
      by_cases hk : kv.1 = sid
      · simp [storeSet, hk]
      · simp [store_get, hk] at h
        simp [storeSet, hk, ih h]

/-- `touch` updates `last_activity_at` of a present session. -/
theorem store_touch_get (store : Store) (sid : String) (s : Session) (now : ℚ)
    (h : store_get store sid = some s) :
    store_get (store_touch store sid now) sid =
      some { s with last_activity_at := now } := by
  simp [store_touch, h, store_get_storeSet_self]

/-- `touch` never changes the dict's size. -/
theorem store_touch_length (store : Store) (sid : String) (now : ℚ) :
    (store_touch store sid now).length = store.length := by
  unfold store_touch
  cases h : store_get store sid with
  | none => rfl
  | some s => exact storeSet_length_of_mem store sid _ s h

/-! ## C5: relative caption time resolution -/

/-- C5: a caption carrying a relative `time` (ms since session start) and no
absolute `timestamp` resolves to `startedAt * 1000 + time + syncOffset`
epoch milliseconds; in particular `startedAt = 1000.0` s, `syncOffset = 50`
ms, `time = 2000` ms resolves to `1002050`. -/
theorem caption_relative_time_resolution
    (started : ℚ) (offset : Int) (txt : String) (rel : ℚ) :
    resolve_caption started offset ⟨txt, none, some rel⟩ =
      ⟨txt, some (started * 1000 + rel + (offset : ℚ))⟩ ∧
    resolve_caption 1000 50 ⟨txt, none, some 2000⟩ = ⟨txt, some 1002050⟩ := by
  constructor
  · rfl
  · simp [resolve_caption]
    norm_num

/-! ## C7: API-key validation ordering -/

/-- C7: `validate_api_key` checks existence, then the active flag, then
expiry against the current UTC time, returning reason `unknown_key`,
`revoked`, or `expired` respectively, and otherwise the stored owner and
expiry with `valid = true`. -/
theorem validate_api_key_ordering (db : List ApiKeyRow) (key : String) (now : Int) :
    (findRow db key = none →
      validate_api_key db key now = ⟨false, some .unknown_key, none, none⟩) ∧
    (∀ row, findRow db key = some row → row.active = 0 →
      validate_api_key db key now = ⟨false, some .revoked, none, none⟩) ∧
    (∀ row exp, findRow db key = some row → ¬row.active = 0 →
      row.expires_at = some exp → exp < now →
      validate_api_key db key now = ⟨false, some .expired, none, none⟩) ∧
    (∀ row, findRow db key = some row → ¬row.active = 0 →
      (∀ exp, row.expires_at = some exp → ¬exp < now) →
      (validate_api_key db key now).valid = true ∧
      (validate_api_key db key now).owner = some row.owner ∧
      (validate_api_key db key now).expires_at = row.expires_at) := by
  refine ⟨?_, ?_, ?_, ?_⟩
  · intro h; simp [validate_api_key, h]
  · intro row h hact; simp [validate_api_key, h, hact]
  · intro row exp h hact hexp hlt
    simp [validate_api_key, h, hact, hexp, hlt]
  · intro row h hact hfut
    cases hexp : row.expires_at with
    | none => simp [validate_api_key, h, hact, hexp]
    | some e =>
        have := hfut e hexp
        simp [validate_api_key, h, hact, hexp, this]

/-- Witness for C7: concrete databases exercising all four branches. -/
theorem validate_api_key_ordering_witness :
    ((validate_api_key [⟨"k", "o", none, 1⟩] "absent" 0).reason = some .unknown_key) ∧
    ((validate_api_key [⟨"r", "o", none, 0⟩] "r" 0).reason = some .revoked) ∧
    ((validate_api_key [⟨"e", "o", some 5, 1⟩] "e" 10).reason = some .expired) ∧
    ((validate_api_key [⟨"k", "o", some 50, 1⟩] "k" 10).valid = true ∧
      (validate_api_key [⟨"k", "o", some 50, 1⟩] "k" 10).owner = some "o") := by
  refine ⟨?_, ?_, ?_, ?_⟩
  · rw [(validate_api_key_ordering [⟨"k", "o", none, 1⟩] "absent" 0).1 (by decide)]
  · rw [(validate_api_key_ordering [⟨"r", "o", none, 0⟩] "r" 0).2.1
      ⟨"r", "o", none, 0⟩ (by decide) (by decide)]
  · rw [(validate_api_key_ordering [⟨"e", "o", some 5, 1⟩] "e" 10).2.2.1
      ⟨"e", "o", some 5, 1⟩ 5 (by decide) (by decide) (by decide) (by decide)]
  · have h := (validate_api_key_ordering [⟨"k", "o", some 50, 1⟩] "k" 10).2.2.2
      ⟨"k", "o", some 50, 1⟩ (by decide) (by decide)
      (by intro e he hlt; simp at he; omega)
    exact ⟨h.1, h.2.1⟩

/-! ## C8: the admin gate -/

/-- C8: `require_admin` fails 503 `ServiceUnavailable` when no admin secret
is configured, 401 `Unauthorized` when the `X-Admin-Key` header is absent,
403 `Forbidden` when it does not equal the configured secret
(`hmac.compare_digest`), and proceeds otherwise.  An unset or empty
environment variable are both "not configured"; an empty header is
"absent". -/
theorem require_admin_cases (cfg hdr : Option String) :
    (cfg.getD "" = "" → require_admin cfg hdr = .serviceUnavailable) ∧
    (¬cfg.getD "" = "" → hdr.getD "" = "" → require_admin cfg hdr = .unauthorized) ∧
    (¬cfg.getD "" = "" → ¬hdr.getD "" = "" → ¬cfg.getD "" = hdr.getD "" →
      require_admin cfg hdr = .forbidden) ∧
    (¬cfg.getD "" = "" → ¬hdr.getD "" = "" → cfg.getD "" = hdr.getD "" →
      require_admin cfg hdr = .proceed) := by
  refine ⟨?_, ?_, ?_, ?_⟩
  · intro h; simp [require_admin, h]
  · intro h1 h2; simp [require_admin, h1, h2]
  · intro h1 h2 h3; simp [require_admin, h1, h2, h3]
  · intro h1 h2 h3; simp [require_admin, h1, h2, h3]

/-- Witness for C8: all four outcomes at concrete configurations. -/
theorem require_admin_cases_witness :
    require_admin none (some "x") = .serviceUnavailable ∧
    require_admin (some "s") none = .unauthorized ∧
    require_admin (some "s") (some "w") = .forbidden ∧
    require_admin (some "s") (some "s") = .proceed := by
  refine ⟨?_, ?_, ?_, ?_⟩
  · exact (require_admin_cases none (some "x")).1 (by decide)
  · exact (require_admin_cases (some "s") none).2.1 (by decide) (by decide)
  · exact (require_admin_cases (some "s") (some "w")).2.2.1 (by decide) (by decide) (by decide)
  · exact (require_admin_cases (some "s") (some "s")).2.2.2 (by decide) (by decide) (by decide)

/-! ## C6: CORS decisions for admin paths and `/health` -/

/-- C6: requests whose path starts with `/keys` get no CORS headers —
whatever the method and Origin, including OPTIONS preflight — while a
`GET /health` with a nonempty Origin gets that origin echoed in
`Access-Control-Allow-Origin`. -/
theorem cors_admin_and_health (method path origin : String) (store : Store) :
    (pathStartsWith path "/keys" = true →
      add_cors_headers method path origin store = emptyCors ∧
      handle_preflight "OPTIONS" path origin store = some (204, emptyCors)) ∧
    (¬origin = "" →
      (add_cors_headers "GET" "/health" origin store).allowOrigin = some origin ∧
      (add_cors_headers "GET" "/health" origin store).allowCredentials = some "true") := by
  constructor
  · intro h
    constructor
    · simp [add_cors_headers, h]
    · simp [handle_preflight, h]
  · intro h
    have hp : is_permissive_route "GET" "/health" = true := by decide
    have hk : pathStartsWith "/health" "/keys" = false := by decide
    simp [add_cors_headers, h, hp, hk]

/-- Witness for C6 at a concrete admin path and origin. -/
theorem cors_admin_and_health_witness :
    add_cors_headers "POST" "/keys/abc" "https://example.com" [] = emptyCors ∧
    handle_preflight "OPTIONS" "/keys/abc" "https://example.com" [] =
      some (204, emptyCors) ∧
    (add_cors_headers "GET" "/health" "https://example.com" []).allowOrigin =
      some "https://example.com" := by
  have h1 := (cors_admin_and_health "POST" "/keys/abc" "https://example.com" []).1
    (by decide)
  have h2 := (cors_admin_and_health "GET" "/health" "https://example.com" []).2
    (by decide)
  exact ⟨h1.1, h1.2, h2.1⟩

/-! ## C9: sequence discipline of heartbeat and send -/

/-- Characterization of a completed `send_batch`: the upstream exchange
happened, the reported sequence is the pre-send one, and the stored
sequence advances exactly on a 2xx status. -/
theorem sender_send_batch_ok_cases (st : SenderState)
    (capsOpt : Option (List CaptionV)) (net : Except Unit PostResult)
    (st' : SenderState) (r : SendResult)
    (h : sender_send_batch st capsOpt net = .ok (st', r)) :
    ∃ pr : PostResult, net = .ok pr ∧ r.status_code = pr.status_code ∧
      r.sequence = st.sequence ∧
      st'.sequence =
        (if 200 ≤ pr.status_code ∧ pr.status_code < 300
         then st.sequence + 1 else st.sequence) := by
  by_cases hs : st.started
  · cases capsOpt with
    | none =>
        cases net with
        | error e =>
            by_cases hc : st.queue = [] <;> simp [sender_send_batch, hs, hc] at h
        | ok pr =>
            by_cases hc : st.queue = []
            · simp [sender_send_batch, hs, hc] at h
            · by_cases h2 : 200 ≤ pr.status_code ∧ pr.status_code < 300 <;>
                · simp [sender_send_batch, hs, hc, h2] at h
                  obtain ⟨h1, hr⟩ := h
                  exact ⟨pr, rfl, by simp [← hr], by simp [← hr], by simp [← h1, h2]⟩
    | some l =>
        cases net with
        | error e =>
            by_cases hc : l = [] <;> simp [sender_send_batch, hs, hc] at h
        | ok pr =>
            by_cases hc : l = []
            · simp [sender_send_batch, hs, hc] at h
            · by_cases h2 : 200 ≤ pr.status_code ∧ pr.status_code < 300 <;>
                · simp [sender_send_batch, hs, hc, h2] at h
                  obtain ⟨h1, hr⟩ := h
                  exact ⟨pr, rfl, by simp [← hr], by simp [← hr], by simp [← h1, h2]⟩
  · simp [sender_send_batch, hs] at h

/-- `heartbeat` returns the state unchanged. -/
theorem sender_heartbeat_ok_cases (st : SenderState) (net : Except Unit PostResult)
    (st' : SenderState) (r : SendResult)
    (h : sender_heartbeat st net = .ok (st', r)) : st' = st := by
  by_cases hs : st.started
  · cases net with
    | error e => simp [sender_heartbeat, hs] at h
    | ok pr =>
        simp [sender_heartbeat, hs] at h
        exact h.1.symm
  · simp [sender_heartbeat, hs] at h

/-- A completed `send` behaves like its `send_batch` on the singleton. -/
theorem sender_send_ok_cases (st : SenderState) (txt : String) (ts : Option ℚ)
    (net : Except Unit PostResult) (st' : SenderState) (r : SendResult)
    (h : sender_send st txt ts net = .ok (st', r)) :
    sender_send_batch st (some [⟨txt, ts⟩]) net = .ok (st', r) := by
  by_cases hs : st.started
  · by_cases ht : txt = ""
    · simp [sender_send, hs, ht] at h
    · simpa [sender_send, hs, ht] using h
  · simp [sender_send, hs] at h

/-- C9: `heartbeat` never changes the sender's sequence, while a completed
`send`/`send_batch` increases it by exactly one iff the upstream status is
2xx — so the sequence is monotonically non-decreasing across send and
heartbeat operations. -/
theorem sender_sequence_discipline (st : SenderState) (net : Except Unit PostResult) :
    (∀ st' r, sender_heartbeat st net = .ok (st', r) → st'.sequence = st.sequence) ∧
    (∀ capsOpt st' r, sender_send_batch st capsOpt net = .ok (st', r) →
      (st'.sequence = st.sequence + 1 ↔ (200 ≤ r.status_code ∧ r.status_code < 300)) ∧
      st.sequence ≤ st'.sequence) ∧
    (∀ txt ts st' r, sender_send st txt ts net = .ok (st', r) →
      (st'.sequence = st.sequence + 1 ↔ (200 ≤ r.status_code ∧ r.status_code < 300)) ∧
      st.sequence ≤ st'.sequence) := by
  have hbatch : ∀ capsOpt st' r, sender_send_batch st capsOpt net = .ok (st', r) →
      (st'.sequence = st.sequence + 1 ↔ (200 ≤ r.status_code ∧ r.status_code < 300)) ∧
      st.sequence ≤ st'.sequence := by
    intro capsOpt st' r h
    obtain ⟨pr, hnet, hstat, hseqr, hseq'⟩ := sender_send_batch_ok_cases st capsOpt net st' r h
    by_cases h2 : 200 ≤ pr.status_code ∧ pr.status_code < 300
    · simp [h2] at hseq'
      refine ⟨iff_of_true hseq' (by rw [hstat]; exact h2), by omega⟩
    · simp [h2] at hseq'
      refine ⟨iff_of_false (by omega) (by rw [hstat]; exact h2), by omega⟩
  refine ⟨?_, hbatch, ?_⟩
  · intro st' r h
    rw [sender_heartbeat_ok_cases st net st' r h]
  · intro txt ts st' r h
    exact hbatch (some [⟨txt, ts⟩]) st' r (sender_send_ok_cases st txt ts net st' r h)

/-- Witness for C9: a started sender at sequence 5, a 200-status exchange. -/
theorem sender_sequence_discipline_witness :
    ((⟨"sk", 6, 0, false, true, []⟩ : SenderState).sequence =
      (⟨"sk", 5, 0, false, true, []⟩ : SenderState).sequence + 1 ↔
      (200 ≤ (⟨5, 200, none, some 1⟩ : SendResult).status_code ∧
        (⟨5, 200, none, some 1⟩ : SendResult).status_code < 300)) ∧
    (⟨"sk", 5, 0, false, true, []⟩ : SenderState).sequence ≤
      (⟨"sk", 6, 0, false, true, []⟩ : SenderState).sequence :=
  (sender_sequence_discipline (⟨"sk", 5, 0, false, true, []⟩ : SenderState)
    (.ok ⟨200, none⟩)).2.1 (some [⟨"hi", none⟩])
    (⟨"sk", 6, 0, false, true, []⟩ : SenderState)
    (⟨5, 200, none, some 1⟩ : SendResult) (by decide)

/-! ## C4: clock-sync offset computation -/

/-- C4 (amended): the sender's own `sync()` leaves the stored offset at its
previous value (zero if never set) and raises no error when the heartbeat
response carries no server timestamp, and otherwise stores
`round(serverEpochMs - (wallBefore + wallAfter) / 2)`; the relay's sync
route (`POST /sync`) instead always stores `roundTripMs // 2` in the
session. -/
theorem sync_offset_update (st : SenderState) (t1 t2 : ℚ) (r : PostResult)
    (hst : st.started = true) :
    (r.server_timestamp = none →
      sender_sync st t1 t2 (.ok r) =
        .ok (st, ⟨st.sync_offset, pythonInt (t2 - t1), none, r.status_code⟩)) ∧
    (∀ ms, r.server_timestamp = some ms →
      sender_sync st t1 t2 (.ok r) =
        .ok ({ st with sync_offset := pythonRound (ms - (t1 + t2) / 2), use_sync_offset := true },
          ⟨pythonRound (ms - (t1 + t2) / 2), pythonInt (t2 - t1), some ms, r.status_code⟩)) ∧
    (∀ store sid session t0 now, store_get store sid = some session →
      session.sender.started = true →
      store_get (sync_session store sid t0 t1 (.ok r) now).2 sid =
        some { session with sync_offset := Int.fdiv (pythonInt ((t1 - t0) * 1000)) 2, last_activity_at := now }) := by
  refine ⟨?_, ?_, ?_⟩
  · intro h; simp [sender_sync, hst, h]
  · intro ms h; simp [sender_sync, hst, h]
  · intro store sid session t0 now hget hstart
    simp [sync_session, hget, sync_via_heartbeat, sender_heartbeat, hstart,
      store_get_storeSet_self]

/-- Witness for C4: a started sender, heartbeat answered with no server
timestamp — offset 7 is kept and the call succeeds. -/
theorem sync_offset_update_witness :
    sender_sync (⟨"sk", 0, 7, false, true, []⟩ : SenderState) 0 1 (.ok ⟨200, none⟩) =
      .ok ((⟨"sk", 0, 7, false, true, []⟩ : SenderState),
        (⟨7, pythonInt (1 - 0), none, 200⟩ : SyncResult)) :=
  (sync_offset_update (⟨"sk", 0, 7, false, true, []⟩ : SenderState) 0 1
    ⟨200, none⟩ (by decide)).1 (by decide)

/-- Counterexample for C4 as frozen: a `POST /sync` run against a session's
sender whose heartbeat response carries no server timestamp does NOT leave
the stored offset at its previous value 7 — with a 1 s round trip it
stores `rtt_ms // 2 = 500`. -/
theorem sync_route_overwrites_offset :
    store_get (sync_session
        [("sid", ⟨"sid", "k", "sk", "d", "jwt", 0, 7, ⟨"sk", 0, 0, false, true, []⟩, 0, 0, 0⟩)]
        "sid" 0 1 (.ok ⟨200, none⟩) 5).2 "sid" =
      some ⟨"sid", "k", "sk", "d", "jwt", 0, 500, ⟨"sk", 0, 0, false, true, []⟩, 0, 0, 5⟩ ∧
    (500 : Int) ≠ 7 := by
  constructor
  · simp [sync_session, store_get, sync_via_heartbeat, sender_heartbeat, storeSet]
    have h3 : pythonInt (1000 : ℚ) = 1000 := by norm_num [pythonInt]
    rw [h3]
    decide
  · decide

/-! ## C10: session updates on the captions error path -/

/-- Resolution never changes a caption's text. -/
theorem resolve_caption_text (s : ℚ) (o : Int) (c : CaptionIn) :
    (resolve_caption s o c).text = c.text := by
  rcases c with ⟨t, ts, tm⟩
  cases ts <;> cases tm <;> rfl

/-- C10: when the upstream send completes with a non-2xx status (no
exception), `POST /captions` still stores the sender's post-send sequence
and refreshes `last_activity_at` before returning the error response. -/
theorem send_captions_updates_on_error (store : Store) (sid : String)
    (session : Session) (caps : List CaptionIn) (r : PostResult) (now : ℚ)
    (hsess : store_get store sid = some session)
    (hstart : session.sender.started = true)
    (hcaps : ¬caps = [])
    (htext : ∀ c ∈ caps, ¬c.text = "")
    (hstatus : ¬(200 ≤ r.status_code ∧ r.status_code < 300)) :
    ∃ session',
      send_captions store sid (some caps) (.ok r) now =
        (⟨r.status_code, some session.sender.sequence, none, some r.status_code, true⟩,
          storeSet store sid session') ∧
      session'.sequence = session'.sender.sequence ∧
      session'.sequence = session.sender.sequence ∧
      session'.last_activity_at = now := by
  cases caps with
  | nil => exact absurd rfl hcaps
  | cons c rest =>
      cases rest with
      | nil =>
          have htxt : ¬(resolve_caption session.started_at session.sync_offset c).text = "" := by
            rw [resolve_caption_text]; exact htext c (by simp)
          refine ⟨{ session with sender := session.sender, sequence := session.sender.sequence, last_activity_at := now }, ?_, rfl, rfl, rfl⟩
          simp [send_captions, hsess, sender_send, hstart, htxt,
            sender_send_batch, hstatus]
      | cons c2 rest2 =>
          refine ⟨{ session with sender := session.sender, sequence := session.sender.sequence, last_activity_at := now }, ?_, rfl, rfl, rfl⟩
          simp [send_captions, hsess, sender_send_batch, hstart, hstatus]

/-- Witness for C10: one caption, upstream answers 500 — sequence and
`last_activity_at` are written back before the error response. -/
theorem send_captions_updates_on_error_witness :
    ∃ session',
      send_captions
          [("s1", ⟨"s1", "k", "sk", "d", "jwt", 3, 0, ⟨"sk", 3, 0, false, true, []⟩, 0, 0, 0⟩)]
          "s1" (some [⟨"hi", none, none⟩]) (.ok ⟨500, none⟩) 9 =
        (⟨500, some (⟨"s1", "k", "sk", "d", "jwt", 3, 0, ⟨"sk", 3, 0, false, true, []⟩, 0, 0, 0⟩ : Session).sender.sequence, none, some 500, true⟩,
          storeSet
            [("s1", ⟨"s1", "k", "sk", "d", "jwt", 3, 0, ⟨"sk", 3, 0, false, true, []⟩, 0, 0, 0⟩)]
            "s1" session') ∧
      session'.sequence = session'.sender.sequence ∧
      session'.sequence = (⟨"s1", "k", "sk", "d", "jwt", 3, 0, ⟨"sk", 3, 0, false, true, []⟩, 0, 0, 0⟩ : Session).sender.sequence ∧
      session'.last_activity_at = 9 :=
  send_captions_updates_on_error
    [("s1", ⟨"s1", "k", "sk", "d", "jwt", 3, 0, ⟨"sk", 3, 0, false, true, []⟩, 0, 0, 0⟩)]
    "s1" ⟨"s1", "k", "sk", "d", "jwt", 3, 0, ⟨"sk", 3, 0, false, true, []⟩, 0, 0, 0⟩
    [⟨"hi", none, none⟩] ⟨500, none⟩ 9
    (by decide) (by decide) (by decide) (by decide) (by decide)

/-! ## C1: idempotent registration -/

/-- C1 (amended): for every triple of truthy (non-empty) `apiKey`,
`streamKey`, `domain` whose API key validates at both calls, two successive
`POST /live` registrations with identical bodies both return 200 with the
same token and the same session id, and the store's size after the second
call equals its size after the first — no duplicate session is created. -/
theorem register_session_idempotent (db : List ApiKeyRow) (now1 now2 : Int)
    (secret : String) (store0 : Store) (apiKey streamKey domain : String)
    (startSeq : Int) (env1 env2 : RegisterEnv)
    (r1 r2 : RegisterResponse) (s1 s2 : Store)
    (ha : ¬apiKey = "") (hs : ¬streamKey = "") (hd : ¬domain = "")
    (hv1 : (validate_api_key db apiKey now1).valid = true)
    (hv2 : (validate_api_key db apiKey now2).valid = true)
    (h1 : register_session db now1 secret store0 apiKey streamKey domain startSeq env1 = (r1, s1))
    (h2 : register_session db now2 secret s1 apiKey streamKey domain startSeq env2 = (r2, s2)) :
    r1.status = 200 ∧ r2.status = 200 ∧ r2.token = r1.token ∧
    r2.sessionId = r1.sessionId ∧ store_size s2 = store_size s1 := by
  have hv1' : ¬(validate_api_key db apiKey now1).valid = false := by simp [hv1]
  have hv2' : ¬(validate_api_key db apiKey now2).valid = false := by simp [hv2]
  unfold register_session at h1 h2
  rw [if_neg (by simp [ha, hs, hd]), if_neg hv1'] at h1
  rw [if_neg (by simp [ha, hs, hd]), if_neg hv2'] at h2
  cases hg : store_get store0 (make_session_id apiKey streamKey domain) with
  | some existing =>
      simp only [hg] at h1
      cases h1
      simp only [store_touch_get store0 (make_session_id apiKey streamKey domain)
        existing env1.now_dt hg] at h2
      cases h2
      exact ⟨rfl, rfl, rfl, rfl, store_touch_length _ _ _⟩
  | none =>
      simp only [hg, store_create] at h1
      cases h1
      simp only [store_get_storeSet_self] at h2
      cases h2
      exact ⟨rfl, rfl, rfl, rfl, store_touch_length _ _ _⟩

/-- Witness for C1: registering `("k", "sk", "d")` twice against an empty
store with a valid key. -/
theorem register_session_idempotent_witness :
    (register_session [⟨"k", "o", none, 1⟩] 0 "secret" [] "k" "sk" "d" 0
      ⟨0, 0, .error (), 0, 0⟩).1.status = 200 ∧
    (register_session [⟨"k", "o", none, 1⟩] 0 "secret"
      (register_session [⟨"k", "o", none, 1⟩] 0 "secret" [] "k" "sk" "d" 0
        ⟨0, 0, .error (), 0, 0⟩).2
      "k" "sk" "d" 0 ⟨0, 0, .error (), 0, 0⟩).1.status = 200 ∧
    (register_session [⟨"k", "o", none, 1⟩] 0 "secret"
      (register_session [⟨"k", "o", none, 1⟩] 0 "secret" [] "k" "sk" "d" 0
        ⟨0, 0, .error (), 0, 0⟩).2
      "k" "sk" "d" 0 ⟨0, 0, .error (), 0, 0⟩).1.token =
      (register_session [⟨"k", "o", none, 1⟩] 0 "secret" [] "k" "sk" "d" 0
        ⟨0, 0, .error (), 0, 0⟩).1.token ∧
    (register_session [⟨"k", "o", none, 1⟩] 0 "secret"
      (register_session [⟨"k", "o", none, 1⟩] 0 "secret" [] "k" "sk" "d" 0
        ⟨0, 0, .error (), 0, 0⟩).2
      "k" "sk" "d" 0 ⟨0, 0, .error (), 0, 0⟩).1.sessionId =
      (register_session [⟨"k", "o", none, 1⟩] 0 "secret" [] "k" "sk" "d" 0
        ⟨0, 0, .error (), 0, 0⟩).1.sessionId ∧
    store_size (register_session [⟨"k", "o", none, 1⟩] 0 "secret"
      (register_session [⟨"k", "o", none, 1⟩] 0 "secret" [] "k" "sk" "d" 0
        ⟨0, 0, .error (), 0, 0⟩).2
      "k" "sk" "d" 0 ⟨0, 0, .error (), 0, 0⟩).2 =
      store_size (register_session [⟨"k", "o", none, 1⟩] 0 "secret" [] "k" "sk" "d" 0
        ⟨0, 0, .error (), 0, 0⟩).2 :=
  register_session_idempotent [⟨"k", "o", none, 1⟩] 0 0 "secret" [] "k" "sk" "d" 0
    ⟨0, 0, .error (), 0, 0⟩ ⟨0, 0, .error (), 0, 0⟩ _ _ _ _
    (by decide) (by decide) (by decide) (by decide) (by decide) rfl rfl

/-- Counterexample for C1 as frozen: the API key `"k"` validates, yet a
registration whose `streamKey` is the empty string returns 400, not 200 —
the claim needs all three fields non-empty. -/
theorem register_session_rejects_empty_field :
    (validate_api_key [⟨"k", "o", none, 1⟩] "k" 0).valid = true ∧
    (register_session [⟨"k", "o", none, 1⟩] 0 "secret" [] "k" "" "d" 0
      ⟨0, 0, .error (), 0, 0⟩).1.status = 400 ∧
    ¬(register_session [⟨"k", "o", none, 1⟩] 0 "secret" [] "k" "" "d" 0
      ⟨0, 0, .error (), 0, 0⟩).1.status = 200 := by
  refine ⟨by decide, by decide, by decide⟩

/-! ## C2: the deterministic session identifier -/

/-- Hex printing yields two characters per byte. -/
theorem bytesHex_length (bs : List Nat) : (bytesHex bs).length = 2 * bs.length := by
  induction bs with
  | nil => rfl
  | cons b rest ih =>
      simp [bytesHex, listFlat, byteHex] at ih ⊢
      omega

/-- A SHA-256 digest is 32 bytes. -/
theorem sha256_length (msg : List Nat) : (sha256 msg).length = 32 := by
  simp [sha256, digestBytes, wordBytes]

/-- C2: the session identifier is exactly the first 16 hex characters of
the SHA-256 digest of `"apiKey:streamKey:domain"`; it is 16 characters
long and deterministic in the triple. -/
theorem session_id_spec (a b c : String) :
    make_session_id a b c = spec_session_id a b c ∧
    (make_session_id a b c).length = 16 ∧
    (∀ a' b' c', a = a' → b = b' → c = c' →
      make_session_id a b c = make_session_id a' b' c') := by
  refine ⟨rfl, ?_, ?_⟩
  · have h : (bytesHex (sha256 (strBytes (a ++ ":" ++ b ++ ":" ++ c)))).length = 64 := by
      rw [bytesHex_length, sha256_length]
    simp [make_session_id, String.length_mk, List.length_take, h]
  · intro a' b' c' h1 h2 h3
    rw [h1, h2, h3]

/-- Witness for C2: the id of `("a","b","c")` — which moreover equals the
value `hashlib` computes for that triple. -/
theorem session_id_spec_witness :
    make_session_id "a" "b" "c" = make_session_id "a" "b" "c" ∧
    make_session_id "a" "b" "c" = "b0ee04f880c4ff42" :=
  ⟨(session_id_spec "a" "b" "c").2.2 "a" "b" "c" rfl rfl rfl, by rfl⟩

/-! ## C3: lemmas on base64url -/

/-- `b64Char` never produces the separator `.`. -/
theorem b64Char_ne_dot (v : Nat) : ¬b64Char v = '.' := by
  rcases Nat.lt_or_ge v 64 with h | h
  · revert h
    revert v
    decide
  · have hlen : b64Alphabet.length ≤ v := by simp [b64Alphabet]; omega
    rw [b64Char, List.getD_eq_default _ _ hlen]
    decide

/-- Decoding inverts the alphabet on 6-bit values. -/
theorem b64Val_b64Char (v : Nat) (h : v < 64) : b64Val (b64Char v) = some v := by
  revert h
  revert v
  decide

/-- Every character emitted by `b64e` is an alphabet character. -/
theorem b64e_chars (bs : List Nat) : ∀ ch ∈ b64e bs, ∃ v, ch = b64Char v := by
  induction bs using b64e.induct with
  | case1 => simp [b64e]
  | case2 b1 =>
      simp [b64e]
  | case3 b1 b2 =>
      simp [b64e]
  | case4 b1 b2 b3 rest ih =>
      intro ch hch
      simp [b64e] at hch
      rcases hch with rfl | rfl | rfl | rfl | hch
      · exact ⟨_, rfl⟩
      · exact ⟨_, rfl⟩
      · exact ⟨_, rfl⟩
      · exact ⟨_, rfl⟩
      · exact ih ch hch

/-- No output of `b64e` contains the separator `.`. -/
theorem b64e_ne_dot (bs : List Nat) : ∀ ch ∈ b64e bs, ¬ch = '.' := by
  intro ch hch
  obtain ⟨v, rfl⟩ := b64e_chars bs ch hch
  exact b64Char_ne_dot v

/-- `b64d` inverts `b64e` on byte lists. -/
theorem b64d_b64e (bs : List Nat) (h : ∀ x ∈ bs, x < 256) :
    b64d (b64e bs) = some bs := by
  induction bs using b64e.induct with
  | case1 => rfl
  | case2 b1 =>
      have h1 : b1 < 256 := h b1 (by simp)
      rw [show b64e [b1] = [b64Char (b1 / 4), b64Char (b1 % 4 * 16)] from rfl]
      simp [b64d, b64Val_b64Char (b1 / 4) (by omega),
        b64Val_b64Char (b1 % 4 * 16) (by omega)]
      omega
  | case3 b1 b2 =>
      have h1 : b1 < 256 := h b1 (by simp)
      have h2 : b2 < 256 := h b2 (by simp)
      rw [show b64e [b1, b2] =
        [b64Char (b1 / 4), b64Char (b1 % 4 * 16 + b2 / 16), b64Char (b2 % 16 * 4)] from rfl]
      simp [b64d, b64Val_b64Char (b1 / 4) (by omega),
        b64Val_b64Char (b1 % 4 * 16 + b2 / 16) (by omega),
        b64Val_b64Char (b2 % 16 * 4) (by omega)]
      constructor <;> omega
  | case4 b1 b2 b3 rest ih =>
      have h1 : b1 < 256 := h b1 (by simp)
      have h2 : b2 < 256 := h b2 (by simp)
      have h3 : b3 < 256 := h b3 (by simp)
      have ih' := ih (fun x hx => h x (by simp [hx]))
      rw [show b64e (b1 :: b2 :: b3 :: rest) =
        b64Char (b1 / 4) :: b64Char (b1 % 4 * 16 + b2 / 16) ::
        b64Char (b2 % 16 * 4 + b3 / 64) :: b64Char (b3 % 64) :: b64e rest from rfl]
      cases hrest : b64e rest with
      | nil =>
          rw [hrest] at ih'
          simp [b64d] at ih'
          simp [b64d, b64Val_b64Char (b1 / 4) (by omega),
            b64Val_b64Char (b1 % 4 * 16 + b2 / 16) (by omega),
            b64Val_b64Char (b2 % 16 * 4 + b3 / 64) (by omega),
            b64Val_b64Char (b3 % 64) (by omega), ← ih']
          refine ⟨by omega, by omega, by omega⟩
      | cons x xs =>
          rw [hrest] at ih'
          simp [b64d, b64Val_b64Char (b1 / 4) (by omega),
            b64Val_b64Char (b1 % 4 * 16 + b2 / 16) (by omega),
            b64Val_b64Char (b2 % 16 * 4 + b3 / 64) (by omega),
            b64Val_b64Char (b3 % 64) (by omega), ih']
          refine ⟨by omega, by omega, by omega⟩

/-! ## C3: lemmas on `str.split` -/

/-- Splitting a separator-free list yields that single group. -/
theorem splitOnChar_not_mem (sep : Char) (zs : List Char) (h : sep ∉ zs) :
    splitOnChar sep zs = [zs] := by
  induction zs with
  | nil => rfl
  | cons c rest ih =>
      have hc : ¬c = sep := fun hc => h (by simp [hc])
      have ih' := ih (fun hm => h (by simp [hm]))
      simp [splitOnChar, hc, ih']

/-- Splitting after a separator-free head group. -/
theorem splitOnChar_append (sep : Char) (xs ys : List Char) (h : sep ∉ xs) :
    splitOnChar sep (xs ++ sep :: ys) = xs :: splitOnChar sep ys := by
  induction xs with
  | nil => simp [splitOnChar]
  | cons c rest ih =>
      have hc : ¬c = sep := fun hc => h (by simp [hc])
      have ih' := ih (fun hm => h (by simp [hm]))
      simp [splitOnChar, hc, ih']

/-! ## C3: lemmas on decimal digits and JSON scalars -/

/-- Bounded facts about `digitChar` hold by computation. -/
theorem digitChar_facts (k : Nat) (h : k < 10) :
    (digitChar k).isDigit = true ∧ digitVal (digitChar k) = k ∧
    (digitChar k).toNat < 128 := by
  revert h
  revert k
  decide

/-- Appending one digit multiplies the accumulated value by ten. -/
theorem foldDigits_append (ds : List Char) (c : Char) :
    foldDigits (ds ++ [c]) = foldDigits ds * 10 + digitVal c := by
  simp [foldDigits, List.foldl_append]

/-- The fuel-driven digit printer: every character is a digit character,
the output is nonempty, and folding the digits back recovers the number. -/
theorem natDigitsF_spec (fuel : Nat) : ∀ n, n < fuel →
    (∀ ch ∈ natDigitsF fuel n, ∃ k, k < 10 ∧ ch = digitChar k) ∧
    ¬natDigitsF fuel n = [] ∧
    foldDigits (natDigitsF fuel n) = n := by
  induction fuel with
  | zero => intro n h; omega
  | succ f ih =>
      intro n h
      by_cases hn : n < 10
      · refine ⟨?_, by simp [natDigitsF, hn], ?_⟩
        · intro ch hch
          simp [natDigitsF, hn] at hch
          exact ⟨n, hn, hch⟩
        · simp [natDigitsF, hn, foldDigits]
          exact (digitChar_facts n hn).2.1
      · have hdiv : n / 10 < f := by omega
        obtain ⟨ihc, ihne, ihfold⟩ := ih (n / 10) hdiv
        refine ⟨?_, ?_, ?_⟩
        · intro ch hch
          simp [natDigitsF, hn] at hch
          rcases hch with hch | rfl
          · exact ihc ch hch
          · exact ⟨n % 10, by omega, rfl⟩
        · simp [natDigitsF, hn]
        · simp only [natDigitsF, hn, if_false, foldDigits_append, ihfold]
          have := (digitChar_facts (n % 10) (by omega)).2.1
          omega

/-- `natDigits` facts. -/
theorem natDigits_spec (n : Nat) :
    (∀ ch ∈ natDigits n, ∃ k, k < 10 ∧ ch = digitChar k) ∧
    ¬natDigits n = [] ∧ foldDigits (natDigits n) = n :=
  natDigitsF_spec (n + 1) n (by omega)

/-- Splitting a digit run off a non-digit remainder. -/
theorem spanDigits_append (ds rest : List Char)
    (hds : ∀ c ∈ ds, c.isDigit = true)
    (hrest : ∀ c, rest.head? = some c → c.isDigit = false) :
    spanDigits (ds ++ rest) = (ds, rest) := by
  induction ds with
  | nil =>
      cases rest with
      | nil => rfl
      | cons r rs => simp [spanDigits, hrest r rfl]
  | cons d ds' ih =>
      have hd : d.isDigit = true := hds d (by simp)
      have ih' := ih (fun c hc => hds c (by simp [hc]))
      simp [spanDigits, hd, ih']

/-- Parsing the printed digits of `n` recovers `n`. -/
theorem parseNat_natDigits (n : Nat) (rest : List Char)
    (hrest : ∀ c, rest.head? = some c → c.isDigit = false) :
    parseNat (natDigits n ++ rest) = some (n, rest) := by
  obtain ⟨hchars, hne, hfold⟩ := natDigits_spec n
  have hdig : ∀ c ∈ natDigits n, c.isDigit = true := by
    intro c hc
    obtain ⟨k, hk, rfl⟩ := hchars c hc
    exact (digitChar_facts k hk).1
  have hspan := spanDigits_append (natDigits n) rest hdig hrest
  cases hd : natDigits n with
  | nil => exact absurd hd hne
  | cons d ds =>
      rw [hd] at hspan hfold
      rw [List.cons_append] at hspan
      simp [parseNat, hspan, hfold]

/-- Parsing the printed form of an integer recovers it. -/
theorem parseIntChars_intChars (n : Int) (rest : List Char)
    (hrest : ∀ c, rest.head? = some c → c.isDigit = false) :
    parseIntChars (intChars n ++ rest) = some (n, rest) := by
  by_cases hn : n < 0
  · have hp := parseNat_natDigits n.natAbs rest hrest
    have hshape : intChars n ++ rest = '-' :: (natDigits n.natAbs ++ rest) := by
      simp [intChars, hn]
    rw [hshape]
    simp only [parseIntChars, if_true]
    rw [hp]
    simp only [Option.map_some']
    have heq : -((n.natAbs : Int)) = n := by omega
    rw [heq]
  · obtain ⟨hchars, hne, _⟩ := natDigits_spec n.toNat
    cases hd : natDigits n.toNat with
    | nil => exact absurd hd hne
    | cons d ds =>
        have hdig : d.isDigit = true := by
          obtain ⟨k, hk, rfl⟩ := hchars d (by rw [hd]; simp)
          exact (digitChar_facts k hk).1
        have hdash : ¬d = '-' := by
          intro hcontr
          rw [hcontr] at hdig
          exact absurd hdig (by decide)
        have hp := parseNat_natDigits n.toNat rest hrest
        rw [hd, List.cons_append] at hp
        have hshape : intChars n ++ rest = d :: (ds ++ rest) := by
          simp [intChars, hn, hd]
        rw [hshape]
        simp only [parseIntChars]
        rw [if_neg hdash, hp]
        simp only [Option.map_some']
        have heq : ((n.toNat : Int)) = n := by omega
        rw [heq]

/-- Reading a quote-free string body up to its closing quote. -/
theorem strCharsPre_append (cs rest : List Char) (h : ∀ c ∈ cs, ¬c = '"') :
    strCharsPre (cs ++ '"' :: rest) = some (cs, rest) := by
  induction cs with
  | nil => simp [strCharsPre]
  | cons c cs' ih =>
      have hc : ¬c = '"' := h c (by simp)
      have ih' := ih (fun x hx => h x (by simp [hx]))
      simp [strCharsPre, hc, ih']

/-! ## C3: characters, UTF-8, and value round trips -/

/-- What `safeStrB` guarantees per character. -/
theorem safeStrB_spec (s : String) (h : safeStrB s = true) :
    ∀ c ∈ s.data, 32 ≤ c.toNat ∧ c.toNat < 127 ∧ ¬c = '"' ∧ ¬c = '\\' := by
  intro c hc
  have hall := List.all_eq_true.mp h c hc
  simp only [Bool.and_eq_true, decide_eq_true_eq, Bool.not_eq_true',
    decide_eq_false_iff_not] at hall
  exact ⟨hall.1.1.1, hall.1.1.2, hall.1.2, hall.2⟩

/-- Unicode code points are below `0x110000`. -/
theorem char_toNat_lt_limit (c : Char) : c.toNat < 1114112 := by
  have h : c.toNat < 55296 ∨ (57343 < c.toNat ∧ c.toNat < 1114112) := c.valid
  omega

/-- UTF-8 bytes are bytes. -/
theorem utf8Bytes_lt (c : Char) : ∀ x ∈ utf8Bytes c, x < 256 := by
  intro x hx
  have hv := char_toNat_lt_limit c
  by_cases h1 : c.toNat < 128
  · simp [utf8Bytes, h1] at hx
    omega
  · by_cases h2 : c.toNat < 2048
    · simp [utf8Bytes, h1, h2] at hx
      rcases hx with rfl | rfl <;> omega
    · by_cases h3 : c.toNat < 65536
      · simp [utf8Bytes, h1, h2, h3] at hx
        rcases hx with rfl | rfl | rfl <;> omega
      · simp [utf8Bytes, h1, h2, h3] at hx
        rcases hx with rfl | rfl | rfl | rfl <;> omega

/-- UTF-8 bytes of a character list are bytes. -/
theorem utf8Chars_lt (cs : List Char) : ∀ x ∈ utf8Chars cs, x < 256 := by
  induction cs with
  | nil => simp [utf8Chars, listFlat]
  | cons c rest ih =>
      intro x hx
      simp only [utf8Chars, listFlat, List.mem_append] at hx
      rcases hx with hx | hx
      · exact utf8Bytes_lt c x hx
      · exact ih x hx

/-- On ASCII characters, UTF-8 is the code point itself. -/
theorem utf8Chars_ascii (cs : List Char) (h : ∀ c ∈ cs, c.toNat < 128) :
    utf8Chars cs = cs.map Char.toNat := by
  induction cs with
  | nil => rfl
  | cons c rest ih =>
      have hc : c.toNat < 128 := h c (by simp)
      have ih' := ih (fun x hx => h x (by simp [hx]))
      simp [utf8Chars, listFlat, utf8Bytes, hc] at ih' ⊢
      exact ih'

/-- Reading ASCII UTF-8 bytes back gives the original characters. -/
theorem asciiChars_utf8 (cs : List Char) (h : ∀ c ∈ cs, c.toNat < 128) :
    asciiChars (utf8Chars cs) = cs := by
  rw [utf8Chars_ascii cs h]
  induction cs with
  | nil => rfl
  | cons c rest ih =>
      have ih' := ih (fun x hx => h x (by simp [hx]))
      simp only [List.map_cons, asciiChars] at ih' ⊢
      simp [Char.ofNat_toNat, ih']

/-- The bytes of a word are bytes. -/
theorem wordBytes_lt (w : Nat) : ∀ x ∈ wordBytes w, x < 256 := by
  intro x hx
  simp [wordBytes] at hx
  rcases hx with rfl | rfl | rfl | rfl <;> omega

/-- SHA-256 digests consist of bytes. -/
theorem sha256_lt (msg : List Nat) : ∀ x ∈ sha256 msg, x < 256 := by
  intro x hx
  simp only [sha256, digestBytes, List.mem_append] at hx
  rcases hx with ((((((hx | hx) | hx) | hx) | hx) | hx) | hx) | hx <;>
    exact wordBytes_lt _ x hx

/-- HMAC-SHA256 outputs bytes. -/
theorem hmacSha256_lt (key msg : List Nat) : ∀ x ∈ hmacSha256 key msg, x < 256 := by
  intro x hx
  exact sha256_lt _ x hx

/-- `String.mk` of a string's characters is that string. -/
theorem string_mk_data (s : String) : String.mk s.data = s := rfl

/-- Parsing the serialization of a safe JSON scalar. -/
theorem parseVal_dumpVal (v : JVal) (rest : List Char)
    (hsafe : safeValB v = true)
    (hrest : ∀ c, rest.head? = some c → c.isDigit = false) :
    parseVal (dumpVal v ++ rest) = some (v, rest) := by
  cases v with
  | jnull => rfl
  | jbool b => cases b <;> rfl
  | jint n =>
      have hp := parseIntChars_intChars n rest hrest
      by_cases hn : n < 0
      · have hshape : dumpVal (JVal.jint n) ++ rest = '-' :: (natDigits n.natAbs ++ rest) := by
          simp [dumpVal, intChars, hn]
        rw [hshape]
        rw [show intChars n ++ rest = '-' :: (natDigits n.natAbs ++ rest) from by
          simp [intChars, hn]] at hp
        simp [parseVal, hp]
      · obtain ⟨hchars, hne, _⟩ := natDigits_spec n.toNat
        cases hd : natDigits n.toNat with
        | nil => exact absurd hd hne
        | cons d ds =>
            obtain ⟨k, hk, rfl⟩ := hchars d (by rw [hd]; simp)
            have hda : (digitChar k).isDigit = true := (digitChar_facts k hk).1
            have hq : ¬digitChar k = '"' := by
              intro hcontr; rw [hcontr] at hda; exact absurd hda (by decide)
            have ht : ¬digitChar k = 't' := by
              intro hcontr; rw [hcontr] at hda; exact absurd hda (by decide)
            have hf : ¬digitChar k = 'f' := by
              intro hcontr; rw [hcontr] at hda; exact absurd hda (by decide)
            have hnu : ¬digitChar k = 'n' := by
              intro hcontr; rw [hcontr] at hda; exact absurd hda (by decide)
            have hshape : dumpVal (JVal.jint n) ++ rest = digitChar k :: (ds ++ rest) := by
              simp [dumpVal, intChars, hn, hd]
            rw [show intChars n ++ rest = digitChar k :: (ds ++ rest) from by
              simp [intChars, hn, hd]] at hp
            rw [hshape]
            simp [parseVal, hq, ht, hf, hnu, hp]
  | jstr s =>
      have hchars := safeStrB_spec s hsafe
      have hshape : dumpVal (JVal.jstr s) ++ rest = '"' :: (s.data ++ '"' :: rest) := by
        simp [dumpVal]
      rw [hshape]
      have hpre := strCharsPre_append s.data rest (fun c hc => (hchars c hc).2.2.1)
      simp [parseVal, hpre, string_mk_data]

/-! ## C3: object-level round trip -/

/-- Parsing the members of a nonempty serialized object. -/
theorem parseMembers_members (claims : Claims) : ∀ (fuel : Nat) (tail : List Char),
    ¬claims = [] → (∀ kv ∈ claims, safeStrB kv.1 = true ∧ safeValB kv.2 = true) →
    claims.length ≤ fuel →
    parseMembers fuel (membersChars claims ++ '}' :: tail) = some (claims, tail) := by
  induction claims with
  | nil => intro fuel tail h _ _; exact absurd rfl h
  | cons kv rest ih =>
      intro fuel tail _ hsafe hfuel
      obtain ⟨f, rfl⟩ : ∃ f, fuel = f + 1 := ⟨fuel - 1, by simp at hfuel; omega⟩
      obtain ⟨hkey, hval⟩ := hsafe kv (by simp)
      have hkeyc := safeStrB_spec kv.1 hkey
      cases rest with
      | nil =>
          have hpre := strCharsPre_append kv.1.data (':' :: (dumpVal kv.2 ++ '}' :: tail))
            (fun c hc => (hkeyc c hc).2.2.1)
          have hval' := parseVal_dumpVal kv.2 ('}' :: tail) hval
            (by intro c hc; simp at hc; subst hc; decide)
          simp only [membersChars, pairChars, List.cons_append, List.append_assoc]
          simp [parseMembers, hpre, hval', string_mk_data, Prod.mk.eta]
      | cons kv2 rest2 =>
          have hpre := strCharsPre_append kv.1.data
            (':' :: (dumpVal kv.2 ++ ',' :: (membersChars (kv2 :: rest2) ++ '}' :: tail)))
            (fun c hc => (hkeyc c hc).2.2.1)
          have hval' := parseVal_dumpVal kv.2
            (',' :: (membersChars (kv2 :: rest2) ++ '}' :: tail)) hval
            (by intro c hc; simp at hc; subst hc; decide)
          have ih' := ih f tail (by simp)
            (fun x hx => hsafe x (by simp [hx])) (by simp at hfuel ⊢; omega)
          simp only [show membersChars (kv :: kv2 :: rest2) =
            pairChars kv ++ ',' :: membersChars (kv2 :: rest2) from rfl]
          simp only [pairChars, List.cons_append, List.append_assoc]
          simp [parseMembers, hpre, hval', ih', string_mk_data, Prod.mk.eta]

/-- Each member serializes to at least one character. -/
theorem membersChars_length (claims : Claims) :
    claims.length ≤ (membersChars claims).length := by
  induction claims with
  | nil => simp [membersChars]
  | cons kv rest ih =>
      cases rest with
      | nil => simp [membersChars, pairChars]
      | cons kv2 rest2 =>
          simp only [show membersChars (kv :: kv2 :: rest2) =
            pairChars kv ++ ',' :: membersChars (kv2 :: rest2) from rfl]
          simp [pairChars] at ih ⊢
          omega

/-- A nonempty object's members serialize starting with a quote. -/
theorem membersChars_head (claims : Claims) (h : ¬claims = []) :
    ∃ tl, membersChars claims = '"' :: tl := by
  cases claims with
  | nil => exact absurd rfl h
  | cons kv rest =>
      cases rest with
      | nil => exact ⟨_, rfl⟩
      | cons kv2 rest2 => exact ⟨_, rfl⟩

/-- `json.loads` inverts the compact serialization on safe claims. -/
theorem json_loads_dumps (claims : Claims)
    (hsafe : ∀ kv ∈ claims, safeStrB kv.1 = true ∧ safeValB kv.2 = true) :
    json_loads (dumpsChars claims) = some claims := by
  by_cases hne : claims = []
  · subst hne; rfl
  · obtain ⟨tl, htl⟩ := membersChars_head claims hne
    have hlen : claims.length ≤ (membersChars claims ++ ['}']).length := by
      have := membersChars_length claims
      simp
      omega
    have hmem := parseMembers_members claims
      ((membersChars claims ++ ['}']).length) [] hne hsafe hlen
    have hobj : parseObj (dumpsChars claims) = some (claims, []) := by
      rw [dumpsChars, htl]
      show parseObj ('{' :: ('"' :: tl ++ ['}'])) = some (claims, [])
      rw [show parseObj ('{' :: ('"' :: tl ++ ['}'])) =
        parseMembers ('"' :: tl ++ ['}']).length ('"' :: tl ++ ['}']) from rfl]
      rw [← htl]
      rw [show membersChars claims ++ ['}'] = membersChars claims ++ '}' :: [] from rfl] at hmem ⊢
      exact hmem
    simp [json_loads, hobj]

/-! ## C3: the serialized payload is ASCII -/

/-- Serialized safe scalars are ASCII. -/
theorem dumpVal_ascii (v : JVal) (hv : safeValB v = true) :
    ∀ c ∈ dumpVal v, c.toNat < 128 := by
  cases v with
  | jnull =>
      intro c hc
      simp [dumpVal] at hc
      rcases hc with rfl | rfl | rfl | rfl <;> decide
  | jbool b =>
      intro c hc
      cases b <;> simp [dumpVal] at hc
      · rcases hc with rfl | rfl | rfl | rfl | rfl <;> decide
      · rcases hc with rfl | rfl | rfl | rfl <;> decide
  | jint n =>
      intro c hc
      have hdig : ∀ x ∈ natDigits n.natAbs, x.toNat < 128 := by
        intro x hx
        obtain ⟨k, hk, rfl⟩ := (natDigits_spec n.natAbs).1 x hx
        exact (digitChar_facts k hk).2.2
      have hdig' : ∀ x ∈ natDigits n.toNat, x.toNat < 128 := by
        intro x hx
        obtain ⟨k, hk, rfl⟩ := (natDigits_spec n.toNat).1 x hx
        exact (digitChar_facts k hk).2.2
      by_cases hn : n < 0 <;> simp [dumpVal, intChars, hn] at hc
      · rcases hc with rfl | hc
        · decide
        · exact hdig c hc
      · exact hdig' c hc
  | jstr s =>
      intro c hc
      simp [dumpVal] at hc
      rcases hc with rfl | hc | rfl
      · decide
      · have := safeStrB_spec s hv c hc
        omega
      · decide

/-- Serialized safe members are ASCII. -/
theorem pairChars_ascii (kv : String × JVal) (hk : safeStrB kv.1 = true)
    (hv : safeValB kv.2 = true) : ∀ c ∈ pairChars kv, c.toNat < 128 := by
  intro c hc
  simp [pairChars] at hc
  rcases hc with rfl | hc | rfl | rfl | hc
  · decide
  · have := safeStrB_spec kv.1 hk c hc
    omega
  · decide
  · decide
  · exact dumpVal_ascii kv.2 hv c hc

/-- Serialized safe member lists are ASCII. -/
theorem membersChars_ascii (claims : Claims)
    (hsafe : ∀ kv ∈ claims, safeStrB kv.1 = true ∧ safeValB kv.2 = true) :
    ∀ c ∈ membersChars claims, c.toNat < 128 := by
  induction claims with
  | nil => simp [membersChars]
  | cons kv rest ih =>
      obtain ⟨hk, hv⟩ := hsafe kv (by simp)
      have ih' := ih (fun x hx => hsafe x (by simp [hx]))
      cases rest with
      | nil => simpa [membersChars] using pairChars_ascii kv hk hv
      | cons kv2 rest2 =>
          intro c hc
          rw [show membersChars (kv :: kv2 :: rest2) =
            pairChars kv ++ ',' :: membersChars (kv2 :: rest2) from rfl] at hc
          simp at hc
          rcases hc with hc | rfl | hc
          · exact pairChars_ascii kv hk hv c hc
          · decide
          · exact ih' c hc

/-- The whole compact serialization is ASCII. -/
theorem dumpsChars_ascii (claims : Claims)
    (hsafe : ∀ kv ∈ claims, safeStrB kv.1 = true ∧ safeValB kv.2 = true) :
    ∀ c ∈ dumpsChars claims, c.toNat < 128 := by
  intro c hc
  simp [dumpsChars] at hc
  rcases hc with rfl | hc | rfl
  · decide
  · exact membersChars_ascii claims hsafe c hc
  · decide

/-! ## C3: the token round trip -/

/-- Decoding a freshly signed token reduces to the expiry check on the
original claims. -/
theorem jwt_decode_encode (claims : Claims) (secret : String) (now : Int)
    (hsafe : ∀ kv ∈ claims, safeStrB kv.1 = true ∧ safeValB kv.2 = true) :
    jwt_decode (jwt_encode claims secret) secret now =
      (match lookupClaim "exp" claims with
       | some (.jint e) => if e < now then .error .expired else .ok claims
       | some _ => .error .typeMismatch
       | none => .ok claims) := by
  have hdotH : '.' ∉ jwtHeaderB64 := fun hm => b64e_ne_dot _ _ hm rfl
  have hdotP : '.' ∉ b64e (utf8Chars (dumpsChars claims)) :=
    fun hm => b64e_ne_dot _ _ hm rfl
  have hdotS : '.' ∉ b64e (hmacSha256 (strBytes secret)
      (utf8Chars (jwtHeaderB64 ++ '.' :: b64e (utf8Chars (dumpsChars claims))))) :=
    fun hm => b64e_ne_dot _ _ hm rfl
  have hdata : (jwt_encode claims secret).data =
      jwtHeaderB64 ++ '.' :: (b64e (utf8Chars (dumpsChars claims)) ++
        '.' :: b64e (hmacSha256 (strBytes secret)
          (utf8Chars (jwtHeaderB64 ++ '.' :: b64e (utf8Chars (dumpsChars claims)))))) := by
    simp [jwt_encode, jwt_encode_chars]
  have hsplit : splitOnChar '.' (jwt_encode claims secret).data =
      [jwtHeaderB64, b64e (utf8Chars (dumpsChars claims)),
        b64e (hmacSha256 (strBytes secret)
          (utf8Chars (jwtHeaderB64 ++ '.' :: b64e (utf8Chars (dumpsChars claims)))))] := by
    rw [hdata, splitOnChar_append '.' _ _ hdotH, splitOnChar_append '.' _ _ hdotP,
      splitOnChar_not_mem '.' _ hdotS]
  have hb64sig : b64d (b64e (hmacSha256 (strBytes secret)
      (utf8Chars (jwtHeaderB64 ++ '.' :: b64e (utf8Chars (dumpsChars claims)))))) =
      some (hmacSha256 (strBytes secret)
        (utf8Chars (jwtHeaderB64 ++ '.' :: b64e (utf8Chars (dumpsChars claims))))) :=
    b64d_b64e _ (hmacSha256_lt _ _)
  have hb64pay : b64d (b64e (utf8Chars (dumpsChars claims))) =
      some (utf8Chars (dumpsChars claims)) :=
    b64d_b64e _ (utf8Chars_lt _)
  have hascii : asciiChars (utf8Chars (dumpsChars claims)) = dumpsChars claims :=
    asciiChars_utf8 _ (dumpsChars_ascii claims hsafe)
  have hloads := json_loads_dumps claims hsafe
  simp only [jwt_decode, hsplit, hb64sig, hb64pay, hascii, hloads, ne_eq,
    not_true_eq_false, if_false]

/-- C3: verifying a token signed over claims without an `exp` returns
exactly the original claims, and verifying one whose `exp` is strictly in
the past fails with the expired-token error.  Holds for every claims
object in the codec's domain: printable-ASCII escape-free strings,
distinct keys. -/
theorem token_codec_round_trip (claims : Claims) (secret : String) (now : Int)
    (hsafe : SafeClaims claims) :
    (lookupClaim "exp" claims = none →
      jwt_decode (jwt_encode claims secret) secret now = .ok claims) ∧
    (∀ e, lookupClaim "exp" claims = some (.jint e) → e < now →
      jwt_decode (jwt_encode claims secret) secret now = .error .expired) := by
  have hkey := jwt_decode_encode claims secret now hsafe.1
  constructor
  · intro hexp
    rw [hkey, hexp]
  · intro e hexp hlt
    rw [hkey, hexp]
    simp [hlt]

/-- Witness for C3: a session-style claims object round-trips, and an
`exp` of 5 at time 10 is rejected as expired. -/
theorem token_codec_round_trip_witness :
    SafeClaims [("sessionId", JVal.jstr "abc")] ∧
    jwt_decode (jwt_encode [("sessionId", JVal.jstr "abc")] "s") "s" 0 =
      .ok [("sessionId", JVal.jstr "abc")] ∧
    jwt_decode (jwt_encode [("exp", JVal.jint 5)] "s") "s" 10 =
      .error .expired := by
  have hsafe1 : SafeClaims [("sessionId", JVal.jstr "abc")] := by
    constructor
    · decide
    · simp [claimKeys]
  have hsafe2 : SafeClaims [("exp", JVal.jint 5)] := by
    constructor
    · decide
    · simp [claimKeys]
  refine ⟨hsafe1, ?_, ?_⟩
  · exact (token_codec_round_trip [("sessionId", JVal.jstr "abc")] "s" 0 hsafe1).1
      (by decide)
  · exact (token_codec_round_trip [("exp", JVal.jint 5)] "s" 10 hsafe2).2 5
      (by decide) (by decide)
